import Mathlib

/-!
Verification of the CORE-MFG/nextjs-packages repository: a shallow
embedding of the settings-management package (`nextjs-settings`) and the
logging package (`nextjs-logging`), with theorems checking the
natural-language specification against the code.

JavaScript data is modelled as follows: JS values that can live in a
settings object are an inductive `JSValue`; JS objects (string-keyed, in
insertion order, keys unique) are association lists manipulated through
`mapGet` / `mapSet` / `mapMerge`, which mirror property lookup, property
assignment and object spread `\x7b...a, ...b\x7d`; JS numbers are modelled
exactly (rationals plus the two infinities and NaN) — every numeric input
appearing in the claims is exactly representable, and no float rounding is
involved in any claimed behaviour.
-/

set_option autoImplicit false

namespace CoreMfg

/-- A JavaScript number as produced by `Number(string)`: NaN, ±Infinity,
or a finite value (modelled exactly as a rational). -/
inductive JSNumber where
  | nan
  | posInf
  | negInf
  | finite (q : Rat)
  deriving DecidableEq, Repr

/-- A JavaScript value that can appear in a settings object: the result of
`JSON.parse`, an env-var coercion, or a plain string/number/boolean. -/
inductive JSValue where
  | null
  | bool (b : Bool)
  | num (q : Rat)
  | inf (negative : Bool)
  | str (s : String)
  | arr (elems : List JSValue)
  | obj (fields : List (String × JSValue))
  deriving Repr

/-- A JS object: string keys to values, in insertion order, keys unique. -/
abbrev JSObject := List (String × JSValue)

/-- JS truthiness of a value (`if (v)`): `null`, `false`, `0`, `-0` and
`""` are falsy; objects, arrays and everything else are truthy. -/
def jsTruthy : JSValue → Bool
  | .null => false
  | .bool b => b
  | .num q => q ≠ 0
  | .inf _ => true
  | .str s => s ≠ ""
  | .arr _ => true
  | .obj _ => true

/-! ### String helpers

Models of the JS string methods the sources use (`toUpperCase`,
`toLowerCase`, `trim`, `startsWith`), written over the character list so
that concrete instances evaluate by `rfl`/`decide`. The inputs at issue
are ASCII. -/

/-- ASCII whitespace for trimming. -/
def isWsChar (c : Char) : Bool :=
  c = ' ' || c = '\t' || c = '\n' || c = '\r' || c = '\x0b' || c = '\x0c'

/-- Trim leading and trailing whitespace from a character list. -/
def trimChars (cs : List Char) : List Char :=
  ((cs.dropWhile isWsChar).reverse.dropWhile isWsChar).reverse

/-- JS `s.trim()`. -/
def jsTrim (s : String) : String :=
  String.mk (trimChars s.data)

/-- JS `s.toUpperCase()` (ASCII). -/
def jsToUpper (s : String) : String :=
  String.mk (s.data.map Char.toUpper)

/-- JS `s.toLowerCase()` (ASCII). -/
def jsToLower (s : String) : String :=
  String.mk (s.data.map Char.toLower)

/-- Character-list prefix test: does the first list start with the
second? -/
def listStartsWith : List Char → List Char → Bool
  | _, [] => true
  | [], _ :: _ => false
  | c :: cs, p :: ps => c = p && listStartsWith cs ps

/-- JS `s.startsWith(p)`. -/
def strStartsWith (s p : String) : Bool :=
  listStartsWith s.data p.data

section MapOps

variable {α : Type}

/-- Property read `m[k]` (and `Map.get`): first entry with the key. -/
def mapGet (m : List (String × α)) (k : String) : Option α :=
  match m with
  | [] => none
  | (k', v) :: rest => if k' = k then some v else mapGet rest k

/-- Property write `m[k] = v` (and `Map.set`): replace in place when the
key exists, else append — JS string-key insertion order. -/
def mapSet (m : List (String × α)) (k : String) (v : α) : List (String × α) :=
  match m with
  | [] => [(k, v)]
  | (k', v') :: rest => if k' = k then (k', v) :: rest else (k', v') :: mapSet rest k v

/-- `k in m` / `Map.has`. -/
def mapHas (m : List (String × α)) (k : String) : Bool :=
  (mapGet m k).isSome

/-- Object spread `\x7b...a, ...b\x7d`: assign every entry of `b` onto `a`
in order. -/
def mapMerge (a b : List (String × α)) : List (String × α) :=
  b.foldl (fun acc kv => mapSet acc kv.1 kv.2) a

/-- `Object.keys`. -/
def mapKeys (m : List (String × α)) : List String :=
  m.map Prod.fst

end MapOps

/-! ### The ECMAScript `Number(string)` conversion

`SettingsManager.assignEnvValue` calls the platform primitives
`Number(raw)` / `isNaN` and `JSON.parse(raw)`; the platform conversions
are modelled here, exactly on the grammar they accept (whitespace
trimming, optional sign, `Infinity`, decimal literals with fraction and
exponent, and unsigned hex/octal/binary literals), with finite values
represented exactly as rationals. -/

/-- Numeric value of a decimal digit. -/
def digitVal (c : Char) : Nat := c.toNat - 48

/-- Accumulate a digit list in a given base. -/
def natOfDigitsInBase (base : Nat) (val : Char → Nat) (ds : List Char) : Nat :=
  ds.foldl (fun n c => n * base + val c) 0

/-- Decimal digit list to a natural number. -/
def natOfDecDigits (ds : List Char) : Nat :=
  natOfDigitsInBase 10 digitVal ds

/-- Hexadecimal digit test. -/
def isHexDigitChar (c : Char) : Bool :=
  c.isDigit || ('a' ≤ c && c ≤ 'f') || ('A' ≤ c && c ≤ 'F')

/-- Numeric value of a hexadecimal digit. -/
def hexVal (c : Char) : Nat :=
  if c.isDigit then digitVal c
  else if 'a' ≤ c && c ≤ 'f' then c.toNat - 87
  else c.toNat - 55

/-- Split a leading run of decimal digits from the rest. -/
def splitDigits (cs : List Char) : List Char × List Char :=
  (cs.takeWhile Char.isDigit, cs.dropWhile Char.isDigit)

/-- Exponent suffix of a decimal string literal: empty, or `e`/`E`, an
optional sign, and at least one digit, consuming the whole rest. -/
def parseExpSuffix (cs : List Char) : Option Int :=
  match cs with
  | [] => some 0
  | 'e' :: rest => parseExpDigits rest
  | 'E' :: rest => parseExpDigits rest
  | _ => none
where
  parseExpDigits (rest : List Char) : Option Int :=
    let (sgn, rest') : Int × List Char :=
      match rest with
      | '+' :: r => (1, r)
      | '-' :: r => (-1, r)
      | r => (1, r)
    let (ds, r2) := splitDigits rest'
    if ds ≠ [] ∧ r2 = [] then some (sgn * (natOfDecDigits ds : Int)) else none

/-- The rational `digits * 10 ^ (e - fracLen)`, built through `mkRat`
so that concrete instances evaluate inside the kernel. -/
def ratOfDigitsExp (digits : Nat) (fracLen : Nat) (e : Int) : Rat :=
  let e10 : Int := e - (fracLen : Int)
  if 0 ≤ e10 then mkRat ((digits * 10 ^ e10.toNat : Nat) : Int) 1
  else mkRat (digits : Int) (10 ^ (-e10).toNat)

/-- Mantissa of a decimal string literal: `digits [. digits]` or
`. digits`, with at least one digit overall; returns the digit value,
the number of fractional digits, and the rest. -/
def parseDecMantissa (cs : List Char) : Option (Nat × Nat × List Char) :=
  let (ip, r1) := splitDigits cs
  match r1 with
  | '.' :: r2 =>
    let (fp, r3) := splitDigits r2
    if ip = [] ∧ fp = [] then none
    else some (natOfDecDigits (ip ++ fp), fp.length, r3)
  | _ => if ip = [] then none else some (natOfDecDigits ip, 0, r1)

/-- Unsigned decimal literal with optional exponent, consuming the whole
input. -/
def parseStrDecimal (cs : List Char) : Option Rat := do
  let (d, fracLen, rest) ← parseDecMantissa cs
  let e ← parseExpSuffix rest
  pure (ratOfDigitsExp d fracLen e)

/-- Signed decimal part of `StringToNumber`: optional sign, then
`Infinity` or a decimal literal. -/
def parseSignedDec (cs : List Char) : JSNumber :=
  let (neg, cs') : Bool × List Char :=
    match cs with
    | '+' :: r => (false, r)
    | '-' :: r => (true, r)
    | r => (false, r)
  if cs' = "Infinity".data then (if neg then .negInf else .posInf)
  else
    match parseStrDecimal cs' with
    | some q => .finite (if neg then -q else q)
    | none => .nan

/-- Unsigned radix literal body (after `0x`/`0o`/`0b`): at least one
digit of the radix, consuming the whole input. -/
def parseRadixBody (base : Nat) (isD : Char → Bool) (val : Char → Nat) (ds : List Char) : JSNumber :=
  if ds ≠ [] ∧ ds.all isD then .finite (mkRat ((natOfDigitsInBase base val ds : Nat) : Int) 1) else .nan

/-- The ECMAScript `Number(string)` conversion (`StringToNumber`):
trim whitespace; empty means `0`; `0x`/`0o`/`0b` radix literals take no
sign; otherwise an optional sign followed by `Infinity` or a decimal
literal; anything else is `NaN`. -/
def jsStringToNumber (s : String) : JSNumber :=
  let t := trimChars s.data
  if t = [] then .finite 0
  else
    match t with
    | '0' :: 'x' :: rest => parseRadixBody 16 isHexDigitChar hexVal rest
    | '0' :: 'X' :: rest => parseRadixBody 16 isHexDigitChar hexVal rest
    | '0' :: 'o' :: rest => parseRadixBody 8 (fun c => '0' ≤ c && c ≤ '7') digitVal rest
    | '0' :: 'O' :: rest => parseRadixBody 8 (fun c => '0' ≤ c && c ≤ '7') digitVal rest
    | '0' :: 'b' :: rest => parseRadixBody 2 (fun c => c = '0' || c = '1') digitVal rest
    | '0' :: 'B' :: rest => parseRadixBody 2 (fun c => c = '0' || c = '1') digitVal rest
    | cs => parseSignedDec cs

/-- `isNaN(Number(s))`. -/
def jsIsNaN (n : JSNumber) : Bool :=
  match n with
  | .nan => true
  | _ => false

/-! ### The `JSON.parse` platform primitive

A model of the JSON grammar accepted by `JSON.parse`: values `null`,
`true`, `false`, numbers (no leading `+`, no `Infinity`, no leading
zeros), strings with escapes, arrays and objects. Duplicate object keys
follow the platform behaviour: the last occurrence wins. Recursion over
nested values is driven by a fuel parameter sized from the input; lone
UTF-16 surrogate escapes, which Lean characters cannot carry, map to the
null character. -/

/-- JSON insignificant whitespace. -/
def jsonWs (c : Char) : Bool := c = ' ' || c = '\t' || c = '\n' || c = '\r'

/-- Drop leading JSON whitespace. -/
def skipWs (cs : List Char) : List Char := cs.dropWhile jsonWs

/-- Body of a JSON string after the opening quote: decoded characters
and the rest after the closing quote. -/
def parseStringRest : List Char → Option (List Char × List Char)
  | [] => none
  | '"' :: rest => some ([], rest)
  | '\\' :: 'u' :: a :: b :: c :: d :: rest =>
    if isHexDigitChar a && isHexDigitChar b && isHexDigitChar c && isHexDigitChar d then
      (parseStringRest rest).map
        (fun p => (Char.ofNat (((hexVal a * 16 + hexVal b) * 16 + hexVal c) * 16 + hexVal d) :: p.1, p.2))
    else none
  | '\\' :: e :: rest =>
    match e with
    | '"' => (parseStringRest rest).map (fun p => ('"' :: p.1, p.2))
    | '\\' => (parseStringRest rest).map (fun p => ('\\' :: p.1, p.2))
    | '/' => (parseStringRest rest).map (fun p => ('/' :: p.1, p.2))
    | 'b' => (parseStringRest rest).map (fun p => ('\x08' :: p.1, p.2))
    | 'f' => (parseStringRest rest).map (fun p => ('\x0c' :: p.1, p.2))
    | 'n' => (parseStringRest rest).map (fun p => ('\n' :: p.1, p.2))
    | 'r' => (parseStringRest rest).map (fun p => ('\r' :: p.1, p.2))
    | 't' => (parseStringRest rest).map (fun p => ('\t' :: p.1, p.2))
    | _ => none
  | ch :: rest =>
    if ch.toNat < 32 then none
    else (parseStringRest rest).map (fun p => (ch :: p.1, p.2))

/-- Exponent part of a JSON number: optional sign and at least one
digit; returns the rest. -/
def parseJsonExp (r : List Char) : Option (Int × List Char) :=
  let (sgn, rr) : Int × List Char :=
    match r with
    | '+' :: t => (1, t)
    | '-' :: t => (-1, t)
    | t => (1, t)
  let (ds, r5) := splitDigits rr
  if ds = [] then none else some (sgn * (natOfDecDigits ds : Int), r5)

/-- A JSON number literal: `-? (0 | [1-9][0-9]*) (. [0-9]+)?
([eE][+-]?[0-9]+)?`; returns the rest. -/
def parseJsonNumber (cs : List Char) : Option (Rat × List Char) :=
  let (neg, cs1) : Bool × List Char :=
    match cs with
    | '-' :: r => (true, r)
    | r => (false, r)
  let ipOpt : Option (Nat × List Char) :=
    match cs1 with
    | '0' :: rest => some (0, rest)
    | c :: rest =>
      if c.isDigit && c ≠ '0' then
        let (ds, r2) := splitDigits rest
        some (natOfDecDigits (c :: ds), r2)
      else none
    | [] => none
  match ipOpt with
  | none => none
  | some (ip, r2) =>
    let fracOpt : Option (Nat × Nat × List Char) :=
      match r2 with
      | '.' :: r =>
        let (fs, r4) := splitDigits r
        if fs = [] then none
        else some (ip * 10 ^ fs.length + natOfDecDigits fs, fs.length, r4)
      | _ => some (ip, 0, r2)
    match fracOpt with
    | none => none
    | some (digits, fracLen, r4) =>
      let expOpt : Option (Int × List Char) :=
        match r4 with
        | 'e' :: r => parseJsonExp r
        | 'E' :: r => parseJsonExp r
        | _ => some (0, r4)
      match expOpt with
      | none => none
      | some (ex, r5) =>
        let q := ratOfDigitsExp digits fracLen ex
        some ((if neg then -q else q), r5)

mutual

/-- A JSON value at the head of the input; returns the rest. -/
def parseJsonValue : Nat → List Char → Option (JSValue × List Char)
  | 0, _ => none
  | Nat.succ fuel, cs =>
    match skipWs cs with
    | 'n' :: 'u' :: 'l' :: 'l' :: r => some (.null, r)
    | 't' :: 'r' :: 'u' :: 'e' :: r => some (.bool true, r)
    | 'f' :: 'a' :: 'l' :: 's' :: 'e' :: r => some (.bool false, r)
    | '"' :: r => (parseStringRest r).map (fun p => (.str (String.mk p.1), p.2))
    | '[' :: r =>
      match skipWs r with
      | ']' :: r2 => some (.arr [], r2)
      | r2 => (parseJsonElems fuel r2).map (fun p => (.arr p.1, p.2))
    | '\x7b' :: r =>
      match skipWs r with
      | '\x7d' :: r2 => some (.obj [], r2)
      | r2 => (parseJsonMembers fuel [] r2).map (fun p => (.obj p.1, p.2))
    | cs' => (parseJsonNumber cs').map (fun p => (.num p.1, p.2))

/-- Comma-separated JSON array elements up to the closing bracket. -/
def parseJsonElems : Nat → List Char → Option (List JSValue × List Char)
  | 0, _ => none
  | Nat.succ fuel, cs =>
    match parseJsonValue fuel cs with
    | none => none
    | some (v, r) =>
      match skipWs r with
      | ',' :: r2 =>
        match parseJsonElems fuel r2 with
        | none => none
        | some (vs, r3) => some (v :: vs, r3)
      | ']' :: r2 => some ([v], r2)
      | _ => none

/-- Comma-separated JSON object members up to the closing brace; a
repeated key overwrites the earlier one, as `JSON.parse` does. -/
def parseJsonMembers : Nat → List (String × JSValue) → List Char → Option (List (String × JSValue) × List Char)
  | 0, _, _ => none
  | Nat.succ fuel, acc, cs =>
    match skipWs cs with
    | '"' :: r =>
      match parseStringRest r with
      | none => none
      | some (kcs, r2) =>
        match skipWs r2 with
        | ':' :: r3 =>
          match parseJsonValue fuel r3 with
          | none => none
          | some (v, r4) =>
            let acc2 := mapSet acc (String.mk kcs) v
            match skipWs r4 with
            | ',' :: r5 => parseJsonMembers fuel acc2 r5
            | '\x7d' :: r5 => some (acc2, r5)
            | _ => none
        | _ => none
    | _ => none

end

/-- `JSON.parse(s)`: parse one value and require only whitespace after
it; `none` models the thrown `SyntaxError`. -/
def jsonParse (s : String) : Option JSValue :=
  match parseJsonValue (2 * s.length + 2) s.data with
  | some (v, rest) => if skipWs rest = [] then some v else none
  | none => none

/-! ## nextjs-settings: `SettingsManager`

Embedding of `src/settings.ts` (the variant whose `initialize` applies
env vars first and then overlays storage, and whose `assignEnvValue`
special-cases booleans and numbers before `JSON.parse`). Environment
variables are a list of name/value pairs (`process.env` entries); the
storage backend is a record of the resolved outcomes of its `load` and
`save` calls. Log statements are pure console output and are not
modelled. -/

namespace SettingsPkg

/-- `process.env`: environment-variable names to string values. -/
abbrev Env := List (String × String)

/-- A storage backend as the resolver sees it: the value `load()`
resolves to (`none` models a backend returning `null`), and the outcome
of `save(settings)` (`Except.error` models a rejected promise). -/
structure ISettingsStorage where
  loadResult : Option JSObject
  saveResult : JSObject → Except String Unit

/-- `SettingsManager.assignEnvValue`, the coercion part: the literal
strings `"true"`/`"false"` become a boolean; else if
`!isNaN(Number(raw))` the value is `Number(raw)` (so any non-NaN result,
including the infinities); else `JSON.parse(raw)` with the raw string as
the fallback on a parse failure. -/
def coerceEnvValue (raw : String) : JSValue :=
  if raw = "true" ∨ raw = "false" then .bool (raw = "true")
  else
    match jsStringToNumber raw with
    | .finite q => .num q
    | .posInf => .inf false
    | .negInf => .inf true
    | .nan =>
      match jsonParse raw with
      | some v => v
      | none => .str raw

/-- The coercion as the claim words it: the number branch is taken only
when the string parses as a *finite* number, anything else (including
`"Infinity"`) falling through to the JSON-parse attempt. Stated for
comparison with `coerceEnvValue`. -/
def coerceEnvValueClaimed (raw : String) : JSValue :=
  if raw = "true" ∨ raw = "false" then .bool (raw = "true")
  else
    match jsStringToNumber raw with
    | .finite q => .num q
    | _ =>
      match jsonParse raw with
      | some v => v
      | none => .str raw

/-- The claim amended no further than the counterexample forces, in the
spec's own wording: the number branch fires whenever the string parses
as a number other than NaN — the infinities included — and only NaN
falls through to the JSON-parse attempt with the verbatim-string
fallback. -/
def coerceEnvValueAmendedSpec (raw : String) : JSValue :=
  if raw = "true" then .bool true
  else if raw = "false" then .bool false
  else
    match jsStringToNumber raw with
    | .nan => (jsonParse raw).getD (.str raw)
    | .finite q => .num q
    | .posInf => .inf false
    | .negInf => .inf true

/-- The mutable state of a `SettingsManager`, together with a log of the
objects handed to `storage.save` (in call order), which renders the
persistence side effects observable. -/
structure SettingsManager where
  settings : JSObject
  name : String
  allowExtra : Bool
  prefixStr : String
  envVarsLoaded : Bool
  saveCalls : List JSObject
  deriving Repr

/-- The constructor: the live settings start as a shallow copy of
`defaults`; no I/O happens here (this variant does not auto-initialize).
The option names follow `SettingsManagerOptions`; the env prefix field
is `_settingsPrefix` in the source. -/
def SettingsManager.make (name : String) (defaults : JSObject)
    (prefixStr : String := "") (allowExtra : Bool := false) : SettingsManager :=
  { settings := defaults
    name := name
    allowExtra := allowExtra
    prefixStr := prefixStr
    envVarsLoaded := false
    saveCalls := [] }

/-- `getEnvVarName`: `PREFIX_KEY` upper-cased when a prefix is set, else
the bare key upper-cased. -/
def SettingsManager.getEnvVarName (m : SettingsManager) (key : String) : String :=
  if m.prefixStr ≠ "" then jsToUpper (m.prefixStr ++ "_" ++ key)
  else jsToUpper key

/-- `assignEnvValue`: coerce the raw env string and assign it. -/
def SettingsManager.assignEnvValue (m : SettingsManager) (key : String) (raw : String) : SettingsManager :=
  { m with settings := mapSet m.settings key (coerceEnvValue raw) }

/-- `loadFromEnvVars`: with `allowExtra` and a prefix, every env var
starting with `PREFIX_` is stripped, lower-cased and assigned (new keys
may appear); otherwise only keys already in the settings are updated,
and only when the env var is set and non-empty (JS truthiness of the
string). Sets `_envVarsLoaded`. -/
def SettingsManager.loadFromEnvVars (m : SettingsManager) (env : Env) : SettingsManager :=
  let prefixUC := jsToUpper m.prefixStr
  let m' :=
    if m.allowExtra && (prefixUC != "") then
      let fullPrefixUC := prefixUC ++ "_"
      env.foldl (fun acc p =>
        if strStartsWith p.1 fullPrefixUC then
          acc.assignEnvValue (jsToLower (p.1.drop fullPrefixUC.length)) p.2
        else acc) m
    else
      (mapKeys m.settings).foldl (fun acc key =>
        match mapGet env (acc.getEnvVarName key) with
        | some v => if v ≠ "" then acc.assignEnvValue key v else acc
        | none => acc) m
  { m' with envVarsLoaded := true }

/-- `initialize()`: step 1 applies env vars, step 2 loads from storage
and shallow-merges the loaded object (or `\x7b\x7d` when `load()`
resolved to `null`) on top of the current settings. -/
def SettingsManager.initializeSettings (m : SettingsManager) (env : Env) (storage : ISettingsStorage) : SettingsManager :=
  let m1 := m.loadFromEnvVars env
  { m1 with settings := mapMerge m1.settings (storage.loadResult.getD []) }

/-- `refresh()`: same two steps as `initialize()`. -/
def SettingsManager.refresh (m : SettingsManager) (env : Env) (storage : ISettingsStorage) : SettingsManager :=
  let m1 := m.loadFromEnvVars env
  { m1 with settings := mapMerge m1.settings (storage.loadResult.getD []) }

/-- `get()`: the live settings object, no I/O. -/
def SettingsManager.get (m : SettingsManager) : JSObject :=
  m.settings

/-- `getValue(key)`: one field of the live object, no I/O
(`none` models `undefined`). -/
def SettingsManager.getValue (m : SettingsManager) (key : String) : Option JSValue :=
  mapGet m.settings key

/-- `setValue(key, value)`: assign the key in place, then trigger
`storage.save(this._settings)` WITHOUT awaiting it — the save outcome is
discarded, so the caller sees no error channel and the returned state
does not depend on the storage at all. -/
def SettingsManager.setValue (m : SettingsManager) (_storage : ISettingsStorage)
    (key : String) (v : JSValue) : SettingsManager :=
  let m' := { m with settings := mapSet m.settings key v }
  { m' with saveCalls := m'.saveCalls ++ [m'.settings] }

/-- `set(newSettings)`: shallow-merge the partial object into the live
settings, then `await storage.save(this._settings)`; the save outcome is
the call's outcome, and the updated in-memory state is kept either way
(no rollback on a rejected save). -/
def SettingsManager.set (m : SettingsManager) (storage : ISettingsStorage)
    (newSettings : JSObject) : SettingsManager × Except String Unit :=
  let m' := { m with settings := mapMerge m.settings newSettings }
  let m'' := { m' with saveCalls := m'.saveCalls ++ [m'.settings] }
  (m'', storage.saveResult m'.settings)

/-- "No matching environment variable is set" for this manager,
branch-wise: with `allowExtra` and a prefix, no env var name starts with
`PREFIX_`; otherwise, for every current settings key the corresponding
env var is unset or empty. -/
def noMatchingEnvB (m : SettingsManager) (env : Env) : Bool :=
  if m.allowExtra && (jsToUpper m.prefixStr != "") then
    env.all (fun p => !(strStartsWith p.1 (jsToUpper m.prefixStr ++ "_")))
  else
    (mapKeys m.settings).all (fun key =>
      match mapGet env (m.getEnvVarName key) with
      | none => true
      | some v => v = "")

end SettingsPkg

/-! ## nextjs-logging: levels and types (`src/levels.ts`) -/

namespace LoggingPkg

/-- The eight log levels. -/
inductive LogLevel where
  | debug
  | info
  | warn
  | error
  | fatal
  | success
  | trace
  | start
  deriving DecidableEq, Repr

/-- `LOG_LEVELS`: severity rank per level (most severe is 0); `info` and
`start` share rank 4. -/
def LOG_LEVELS : LogLevel → Nat
  | .fatal => 0
  | .error => 1
  | .warn => 2
  | .success => 3
  | .info => 4
  | .start => 4
  | .debug => 5
  | .trace => 6

/-- The nine logger types. -/
inductive LogType where
  | service
  | component
  | hook
  | «class»
  | api
  | package
  | store
  | provider
  | unknown
  deriving DecidableEq, Repr

/-- Level name to level, for string values arriving over HTTP. -/
def logLevelOfString (s : String) : Option LogLevel :=
  if s = "debug" then some .debug
  else if s = "info" then some .info
  else if s = "warn" then some .warn
  else if s = "error" then some .error
  else if s = "fatal" then some .fatal
  else if s = "success" then some .success
  else if s = "trace" then some .trace
  else if s = "start" then some .start
  else none

/-- Type name to type. -/
def logTypeOfString (s : String) : Option LogType :=
  if s = "service" then some .service
  else if s = "component" then some .component
  else if s = "hook" then some .hook
  else if s = "class" then some .«class»
  else if s = "api" then some .api
  else if s = "package" then some .package
  else if s = "store" then some .store
  else if s = "provider" then some .provider
  else if s = "unknown" then some .unknown
  else none

/-- `isValidLogLevel(level)`: a string that is a key of `LOG_LEVELS`. -/
def isValidLogLevel (v : JSValue) : Bool :=
  match v with
  | .str s => (logLevelOfString s).isSome
  | _ => false

/-- `VALID_LOG_TYPES.includes(type)` on an arbitrary JSON value. -/
def isValidLogType (v : JSValue) : Bool :=
  match v with
  | .str s => (logTypeOfString s).isSome
  | _ => false

/-- `LogConfigEntry`: the serialized form of a logger. -/
structure LogConfigEntry where
  name : String
  level : LogLevel
  type : LogType
  errorVerbose : Bool
  enabled : Bool
  deriving DecidableEq, Repr

/-! ### Logger of `/src/lib/logging/logger.ts` (part_004 variant)

This variant has no `enabled` flag; its `shouldLog` compares ranks
against the effective level only. The claim about level filtering cites
this file. -/

namespace Lib

/-- The instance fields of this Logger variant. -/
structure Logger where
  name : String
  type : LogType
  errorVerbose : Bool
  level : LogLevel
  deriving DecidableEq, Repr

/-- `shouldLog(level)`: the effective level is the module-global
override when set (`moduleGlobalLogLevel ?? this._level`), else the
instance level; log iff `LOG_LEVELS[level] <=
LOG_LEVELS[effectiveLevel]`. -/
def Logger.shouldLog (moduleGlobalLogLevel : Option LogLevel) (l : Logger) (level : LogLevel) : Bool :=
  let effectiveLevel := moduleGlobalLogLevel.getD l.level
  decide (LOG_LEVELS level ≤ LOG_LEVELS effectiveLevel)

/-- The private `log` method returns without touching a console sink iff
`shouldLog` is false, so a call at `level` emits iff `shouldLog`. -/
def Logger.logEmits (moduleGlobalLogLevel : Option LogLevel) (l : Logger) (level : LogLevel) : Bool :=
  l.shouldLog moduleGlobalLogLevel level

end Lib

/-! ### Registry (`src/registry/baseRegistry.ts`) -/

/-- `interface Registrable \x7b name: string \x7d`. -/
class Registrable (T : Type) where
  name : T → String

/-- `Registry<T>`: a name-keyed `Map` in insertion order. -/
structure Registry (T : Type) where
  items : List (String × T)
  deriving Repr

/-- `register(item)`: insert only when the name is absent. -/
def Registry.register {T : Type} [Registrable T] (r : Registry T) (item : T) : Registry T :=
  if !(mapHas r.items (Registrable.name item)) then
    { items := mapSet r.items (Registrable.name item) item }
  else r

/-- `list()`: `Object.fromEntries(this.items)` — the same entries, keyed
by name, in insertion order. -/
def Registry.list {T : Type} (r : Registry T) : List (String × T) :=
  r.items

/-- `get(name)`: lookup-or-undefined. -/
def Registry.get {T : Type} (r : Registry T) (name : String) : Option T :=
  mapGet r.items name

/-- `update(item)`: replace only when the name is present. -/
def Registry.update {T : Type} [Registrable T] (r : Registry T) (item : T) : Registry T :=
  if mapHas r.items (Registrable.name item) then
    { items := mapSet r.items (Registrable.name item) item }
  else r

/-! ### Client store (`src/registry/clientRegistry.ts`) -/

/-- The persisted reactive client store: a name-keyed record of
`LogConfigEntry`. -/
structure LoggerStore where
  loggers : List (String × LogConfigEntry)
  deriving Repr

/-- `setLogger(entry)`: a falsy name logs an error and leaves the store
unchanged; otherwise the entry is merged over whatever is stored under
the name. `Logger.init` always passes a full entry, so the stored record
becomes exactly the entry. -/
def LoggerStore.setLogger (st : LoggerStore) (entry : LogConfigEntry) : LoggerStore :=
  if entry.name = "" then st
  else { loggers := mapSet st.loggers entry.name entry }

/-! ### Logger of the nextjs-logging package (storage/README.md variant)

The full variant: an `enabled` flag, a 6-argument constructor whose last
parameter requests registration, `init` wiring to the server registry or
the client store, and `toJSON`/`fromJSON`. -/

/-- The instance fields. -/
structure Logger where
  name : String
  type : LogType
  errorVerbose : Bool
  level : LogLevel
  enabled : Bool
  deriving DecidableEq, Repr

instance : Registrable Logger := ⟨Logger.name⟩

/-- `toJSON()`. -/
def Logger.toJSON (l : Logger) : LogConfigEntry :=
  { name := l.name, level := l.level, type := l.type
    errorVerbose := l.errorVerbose, enabled := l.enabled }

/-- The world a logger registers into: the process-wide server registry
and the persisted client store. -/
structure World where
  serverRegistry : Registry Logger
  clientStore : LoggerStore
  deriving Repr

/-- `init(register)`. Client: an existing store entry under the name
overrides the instance's level/enabled/errorVerbose/type (the `register`
flag is not consulted); a missing entry is created from the instance;
the instance also subscribes to its own entry, which only matters on
later store changes and adds nothing to the constructed state. Server:
when `register` is requested the instance is handed to
`registry.register`, which keeps the existing entry when the name is
taken. -/
def Logger.init (l : Logger) (register : Bool) (isClient : Bool) (w : World) : Logger × World :=
  if isClient then
    match mapGet w.clientStore.loggers l.name with
    | some e =>
      ({ l with level := e.level, enabled := e.enabled
                errorVerbose := e.errorVerbose, type := e.type }, w)
    | none =>
      (l, { w with clientStore := w.clientStore.setLogger l.toJSON })
  else
    if register then (l, { w with serverRegistry := w.serverRegistry.register l })
    else (l, w)

/-- `new Logger(name, type, level, errorVerbose, enabled, register)`:
assign the fields, then run `init(register)`. -/
def Logger.construct (name : String) (type : LogType) (level : LogLevel)
    (errorVerbose : Bool) (enabled : Bool) (register : Bool)
    (isClient : Bool) (w : World) : Logger × World :=
  Logger.init { name := name, type := type, errorVerbose := errorVerbose
                level := level, enabled := enabled } register isClient w

/-- `Logger.fromJSON(data)`: `new Logger(data.name, data.type,
data.level, data.errorVerbose, data.enabled)` — the normal constructor,
with its default `register = true`. -/
def Logger.fromJSON (data : LogConfigEntry) (isClient : Bool) (w : World) : Logger × World :=
  Logger.construct data.name data.type data.level data.errorVerbose data.enabled true isClient w

/-- `shouldLog(level)` of this variant: additionally requires the
instance to be enabled. -/
def Logger.shouldLog (moduleGlobalLogLevel : Option LogLevel) (l : Logger) (level : LogLevel) : Bool :=
  let effectiveLevel := moduleGlobalLogLevel.getD l.level
  l.enabled && decide (LOG_LEVELS level ≤ LOG_LEVELS effectiveLevel)

/-! ### HTTP handlers (`handlers.ts`), batch logger update -/

namespace Handlers

/-- JS property access `v.k` on a parsed JSON body value: `undefined`
(`none`) unless `v` is an object carrying the key. None of the
properties read here exist on primitives or arrays. -/
def getProp (v : JSValue) (k : String) : Option JSValue :=
  match v with
  | .obj fields => mapGet fields k
  | _ => none

/-- `true` iff the value is a JSON boolean (`typeof x === "boolean"`). -/
def isBoolValue (v : JSValue) : Bool :=
  match v with
  | .bool _ => true
  | _ => false

/-- `Object.keys(LOG_LEVELS).join(", ")`. -/
def logLevelKeysJoined : String :=
  "fatal, error, warn, success, info, start, debug, trace"

/-- `VALID_LOG_TYPES.join(", ")`. -/
def logTypesJoined : String :=
  "service, component, hook, class, api, package, store, provider, unknown"

/-- `validateLoggerUpdate(logConfigEntry)`: name must be a non-blank
string; level/type/errorVerbose/enabled, when present, must be a valid
level, a valid type, and booleans. Returns the error, or `none` when
valid. -/
def validateLoggerUpdate (item : JSValue) : Option String :=
  let nameOk : Bool :=
    match getProp item "name" with
    | some (.str s) => jsTrim s ≠ ""
    | _ => false
  if !nameOk then some ("Invalid logger \x27name\x27")
  else if (match getProp item "level" with
           | none => false
           | some lv => !isValidLogLevel lv) then
    some ("Invalid \x27level\x27: must be one of " ++ logLevelKeysJoined)
  else if (match getProp item "type" with
           | none => false
           | some ty => !isValidLogType ty) then
    some ("\x27type\x27 must be one of " ++ logTypesJoined)
  else if (match getProp item "errorVerbose" with
           | none => false
           | some b => !isBoolValue b) then
    some ("\x27errorVerbose\x27 must be a boolean")
  else if (match getProp item "enabled" with
           | none => false
           | some b => !isBoolValue b) then
    some ("\x27enabled\x27 must be a boolean")
  else none

/-- The in-place property updates an update handler applies to an
existing logger: level, errorVerbose and enabled when present (`type` is
deliberately not updated). Reached only after validation, so present
values have the right shape; an ill-shaped value is left unapplied. -/
def applyUpdates (item : JSValue) (l : LoggingPkg.Logger) : LoggingPkg.Logger :=
  let l1 :=
    match getProp item "level" with
    | some (.str s) =>
      match logLevelOfString s with
      | some lvl => { l with level := lvl }
      | none => l
    | _ => l
  let l2 :=
    match getProp item "errorVerbose" with
    | some (.bool b) => { l1 with errorVerbose := b }
    | _ => l1
  match getProp item "enabled" with
  | some (.bool b) => { l2 with enabled := b }
  | _ => l2

/-- One entry of the `results` array of the batch response. The `name`
field is the raw `name` property (or the synthesized `entry-i`), so its
type is a JSON value. -/
structure BatchItemResult where
  name : JSValue
  success : Bool
  error : Option String
  config : Option LogConfigEntry
  deriving Repr

/-- The accumulator of the batch loop: the registry threaded through the
updates, the `results` array and the `errors` array. -/
structure BatchStep where
  reg : LoggingPkg.Registry LoggingPkg.Logger
  results : List BatchItemResult
  errors : List String
  deriving Repr

/-- `name || "entry-" + i` for the result entry of a failed item. -/
def nameOrEntry (nameProp : Option JSValue) (i : Nat) : JSValue :=
  match nameProp with
  | some v => if jsTruthy v then v else .str ("entry-" ++ toString i)
  | none => .str ("entry-" ++ toString i)

/-- The body of the batch loop for item `i`: falsy entries and
validation failures are recorded and skipped; an absent logger name is
recorded and skipped; otherwise the logger is updated in the registry
and a success result carrying its serialized config is recorded. -/
def processEntry (st : BatchStep) (i : Nat) (item : JSValue) : BatchStep :=
  if !(jsTruthy item) then
    { st with
      results := st.results ++ [{ name := .str ("entry-" ++ toString i), success := false
                                  error := some "Invalid entry: null or undefined", config := none }]
      errors := st.errors ++ ["Entry " ++ toString i ++ ": Invalid entry"] }
  else
    match validateLoggerUpdate item with
    | some err =>
      { st with
        results := st.results ++ [{ name := nameOrEntry (getProp item "name") i, success := false
                                    error := some err, config := none }]
        errors := st.errors ++ ["Entry " ++ toString i ++ ": " ++ err] }
    | none =>
      -- validation passed, so the name property is a non-blank string
      let nameStr := match getProp item "name" with
        | some (.str s) => s
        | _ => ""
      match LoggingPkg.Registry.get st.reg nameStr with
      | none =>
        let err := "Logger \x27" ++ nameStr ++ "\x27 not found in registry"
        { st with
          results := st.results ++ [{ name := .str nameStr, success := false
                                      error := some err, config := none }]
          errors := st.errors ++ ["Entry " ++ toString i ++ ": " ++ err] }
      | some existingLogger =>
        let updated := applyUpdates item existingLogger
        { reg := LoggingPkg.Registry.update st.reg updated
          results := st.results ++ [{ name := .str nameStr, success := true
                                      error := none, config := some updated.toJSON }]
          errors := st.errors }

/-- The JSON body of the batch response plus its HTTP status. -/
structure BatchResponse where
  success : Bool
  totalProcessed : Nat
  successCount : Nat
  failureCount : Nat
  results : List BatchItemResult
  errors : List String
  status : Nat
  deriving Repr

/-- The two response shapes of the batch endpoint. -/
inductive BatchHandlerResponse where
  | badRequest (error : String) (status : Nat)
  | batch (resp : BatchResponse)
  deriving Repr

/-- The array case of the batch endpoint: process every item in order
(failures do not stop the loop), count successes and failures from the
results, and pick the status: 200 when no error was recorded, 207 when
some item succeeded, else 400. -/
def batchRun (reg : LoggingPkg.Registry LoggingPkg.Logger)
    (items : List JSValue) : BatchResponse × LoggingPkg.Registry LoggingPkg.Logger :=
  let st := items.enum.foldl (fun st p => processEntry st p.1 p.2)
    { reg := reg, results := [], errors := [] }
  let successCount := (st.results.filter (fun r => r.success)).length
  let failureCount := (st.results.filter (fun r => !r.success)).length
  let statusCode := if st.errors.length = 0 then 200 else if successCount > 0 then 207 else 400
  ({ success := st.errors.isEmpty
     totalProcessed := items.length
     successCount := successCount
     failureCount := failureCount
     results := st.results
     errors := st.errors
     status := statusCode }, st.reg)

/-- `putServerLoggersBatchHandler`: a non-array body is rejected with
400, otherwise the batch loop runs. Returns the response and the updated
registry. -/
def putServerLoggersBatchHandler (reg : LoggingPkg.Registry LoggingPkg.Logger)
    (body : JSValue) : BatchHandlerResponse × LoggingPkg.Registry LoggingPkg.Logger :=
  match body with
  | .arr items =>
    let out := batchRun reg items
    (.batch out.fst, out.snd)
  | _ =>
    (.badRequest "Request body must be an array of logger configurations" 400, reg)

/-- A batch item that will succeed against a registry with the given key
set: truthy, valid, and its name is a registered key. -/
def goodItemB (names : List String) (item : JSValue) : Bool :=
  jsTruthy item && (validateLoggerUpdate item).isNone &&
    (match getProp item "name" with
     | some (.str s) => names.contains s
     | _ => false)

/-- A batch item that is well-formed but names an unregistered logger:
truthy, valid, and its name is not a registered key. -/
def ghostItemB (names : List String) (item : JSValue) : Bool :=
  jsTruthy item && (validateLoggerUpdate item).isNone &&
    (match getProp item "name" with
     | some (.str s) => !(names.contains s)
     | _ => false)

end Handlers

end LoggingPkg

/-! ## nextjs-settings storage backends (`storage/FileStorage.ts`)

`FileStorage.load` (first variant, the one with per-call logging) and
`RedisStorage.load` (the hash variant, `hgetall`-based). File reads are
modelled by the file content (`none` when the file is missing, which
makes `fs.readFile` reject with `ENOENT`); the logging-side effect of
interest — the `logger.warn` calls — is returned alongside the result. -/

namespace SettingsPkg

/-- `FileStorage.load()`: read the file and `JSON.parse` it. A missing
file (`ENOENT`) is caught: a warning is logged and `\x7b\x7d` returned.
Any other exception — in particular the `SyntaxError` of a failed
`JSON.parse` — is rethrown (`Except.error`), with no warning logged. -/
def FileStorage.load (fileContent : Option String) : Except String JSValue × List String :=
  match fileContent with
  | some data =>
    match jsonParse data with
    | some result => (.ok result, [])
    | none => (.error "SyntaxError: JSON.parse", [])
  | none =>
    (.ok (.obj []), ["settings file missing during load, returning empty object"])

/-- `RedisStorage.load()` (hash variant): `hgetall`, `\x7b\x7d` when the
hash is empty, else each field is `JSON.parse`d with the raw string kept
on a parse failure; nothing here can throw or log a warning. -/
def RedisStorage.load (data : List (String × String)) : JSObject :=
  if data.isEmpty then []
  else data.foldl (fun result kv => mapSet result kv.1 ((jsonParse kv.2).getD (.str kv.2))) []

end SettingsPkg

/-! ## Proofs

Lemmas about the object-map operations, followed by the claim theorems. -/

section MapLemmas

variable {α : Type}

@[simp]
theorem mapGet_nil (k : String) : mapGet ([] : List (String × α)) k = none := rfl

@[simp]
theorem mapGet_mapSet_self (m : List (String × α)) (k : String) (v : α) :
    mapGet (mapSet m k v) k = some v := by
  induction m with
  | nil => simp [mapSet, mapGet]
  | cons hd tl ih =>
    obtain ⟨k', v'⟩ := hd
    by_cases h : k' = k <;> simp [mapSet, mapGet, h, ih]

theorem mapGet_mapSet_ne (m : List (String × α)) (k k' : String) (v : α) (h : k' ≠ k) :
    mapGet (mapSet m k v) k' = mapGet m k' := by
  have hne : k ≠ k' := Ne.symm h
  induction m with
  | nil => simp [mapSet, mapGet, hne]
  | cons hd tl ih =>
    obtain ⟨k₀, v₀⟩ := hd
    by_cases h0 : k₀ = k
    · subst h0
      simp [mapSet, mapGet, hne]
    · by_cases h1 : k₀ = k' <;> simp [mapSet, mapGet, h0, h1, hne, h, ih]

theorem mapKeys_mapSet_of_has (m : List (String × α)) (k : String) (v : α)
    (h : mapHas m k = true) : mapKeys (mapSet m k v) = mapKeys m := by
  induction m with
  | nil => simp [mapHas, mapGet] at h
  | cons hd tl ih =>
    obtain ⟨k₀, v₀⟩ := hd
    by_cases h0 : k₀ = k
    · simp [mapSet, mapKeys, h0]
    · simp only [mapHas, mapGet, h0, if_false] at h
      simp [mapSet, mapKeys, h0] at ih ⊢
      exact ih h

theorem mapHas_mapSet (m : List (String × α)) (k k' : String) (v : α) :
    mapHas (mapSet m k v) k' = (k' = k || mapHas m k') := by
  by_cases h : k' = k
  · subst h; simp [mapHas]
  · simp [mapHas, mapGet_mapSet_ne m k k' v h, h]

theorem mapGet_mapMerge_of_not_has (a b : List (String × α)) (k : String)
    (h : mapHas b k = false) : mapGet (mapMerge a b) k = mapGet a k := by
  induction b generalizing a with
  | nil => simp [mapMerge]
  | cons hd tl ih =>
    obtain ⟨k₀, v₀⟩ := hd
    simp only [mapHas, mapGet] at h
    by_cases h0 : k₀ = k
    · simp [h0] at h
    · simp only [h0, if_false] at h
      have : mapMerge a ((k₀, v₀) :: tl) = mapMerge (mapSet a k₀ v₀) tl := rfl
      rw [this, ih (mapSet a k₀ v₀) h, mapGet_mapSet_ne a k₀ k v₀ (fun hh => h0 hh.symm)]

theorem mapGet_mem_keys (m : List (String × α)) (k : String) :
    mapHas m k = true → k ∈ mapKeys m := by
  induction m with
  | nil => simp [mapHas, mapGet]
  | cons hd tl ih =>
    obtain ⟨k₀, v₀⟩ := hd
    by_cases h0 : k₀ = k
    · simp [mapKeys, h0]
    · simp only [mapHas, mapGet, h0, if_false]
      intro h
      exact List.mem_cons_of_mem _ (ih h)

theorem mapGet_mapMerge_of_has (a b : List (String × α)) (k : String)
    (hnd : (mapKeys b).Nodup) (h : mapHas b k = true) :
    mapGet (mapMerge a b) k = mapGet b k := by
  induction b generalizing a with
  | nil => simp [mapHas, mapGet] at h
  | cons hd tl ih =>
    obtain ⟨k₀, v₀⟩ := hd
    simp only [mapKeys, List.map_cons, List.nodup_cons] at hnd
    have step : mapMerge a ((k₀, v₀) :: tl) = mapMerge (mapSet a k₀ v₀) tl := rfl
    by_cases h0 : k₀ = k
    · subst h0
      have hnotin : mapHas tl k₀ = false := by
        cases hc : mapHas tl k₀ with
        | false => rfl
        | true => exact absurd (by simpa [mapKeys] using mapGet_mem_keys tl k₀ hc) hnd.1
      rw [step, mapGet_mapMerge_of_not_has (mapSet a k₀ v₀) tl k₀ hnotin]
      simp [mapGet]
    · simp only [mapHas, mapGet, h0, if_false] at h
      rw [step, ih (mapSet a k₀ v₀) (by simpa [mapKeys] using hnd.2) (by simpa [mapHas] using h)]
      simp [mapGet, h0]


end MapLemmas

/-! ### C2 — env-var coercion order -/

/-- C2, counterexample: at the raw string `"Infinity"` the code takes
the number branch (since `isNaN(Number("Infinity"))` is false) and
assigns the number `Infinity`, while the claimed procedure — number
branch only for *finite* parses — would fall through to the JSON parse,
fail, and assign the verbatim string. The claimed equation is therefore
not universally true of `coerceEnvValue`. -/
theorem C2_counterexample_infinity :
    SettingsPkg.coerceEnvValue "Infinity" = JSValue.inf false ∧
    SettingsPkg.coerceEnvValueClaimed "Infinity" = JSValue.str "Infinity" ∧
    ¬ (∀ raw : String, SettingsPkg.coerceEnvValue raw = SettingsPkg.coerceEnvValueClaimed raw) := by
  refine ⟨rfl, rfl, fun h => ?_⟩
  have h2 := h "Infinity"
  rw [show SettingsPkg.coerceEnvValue "Infinity" = JSValue.inf false from rfl,
      show SettingsPkg.coerceEnvValueClaimed "Infinity" = JSValue.str "Infinity" from rfl] at h2
  exact JSValue.noConfusion h2

/-- C2, amended: the coercion applies, in order: the literal strings
`"true"`/`"false"` become the boolean; else a string whose `Number`
conversion is not NaN — the infinities included — becomes that number;
else a JSON parse is attempted, and on failure the raw string is used
verbatim. Consequently `"true"`, `"false"`, `"3"`, `"foo"` and
an object literal coerce as the claim lists. -/
theorem C2_env_coercion_amended :
    (∀ raw : String, SettingsPkg.coerceEnvValue raw = SettingsPkg.coerceEnvValueAmendedSpec raw) ∧
    SettingsPkg.coerceEnvValue "true" = JSValue.bool true ∧
    SettingsPkg.coerceEnvValue "false" = JSValue.bool false ∧
    SettingsPkg.coerceEnvValue "3" = JSValue.num 3 ∧
    SettingsPkg.coerceEnvValue "foo" = JSValue.str "foo" ∧
    SettingsPkg.coerceEnvValue ("\x7b\"a\":1\x7d") = JSValue.obj [("a", JSValue.num 1)] := by
  refine ⟨fun raw => ?_, rfl, rfl, rfl, rfl, rfl⟩
  unfold SettingsPkg.coerceEnvValue SettingsPkg.coerceEnvValueAmendedSpec
  by_cases h1 : raw = "true"
  · simp [h1]
  · by_cases h2 : raw = "false"
    · simp [h1, h2]
    · simp only [h1, h2, or_self, if_false]
      rcases hn : jsStringToNumber raw with _ | _ | _ | q
      · cases hj : jsonParse raw <;> simp [hn, hj]
      · simp [hn]
      · simp [hn]
      · simp [hn]

/-! ### C3 — logger level filtering -/

/-- C3: the rank table is exactly fatal=0, error=1, warn=2, success=3,
info=4, start=4, debug=5, trace=6; a call at level `L` emits iff
`rank(L) <= rank(effective)`, where the effective level is the
process-wide override when set (fully replacing the instance level),
else the instance level; a warn-level logger emits on warn/error/fatal
and not on debug/info/trace/success/start; an error override silences a
debug-level instance below error. -/
theorem C3_level_filtering :
    (LoggingPkg.LOG_LEVELS .fatal = 0 ∧ LoggingPkg.LOG_LEVELS .error = 1 ∧
     LoggingPkg.LOG_LEVELS .warn = 2 ∧ LoggingPkg.LOG_LEVELS .success = 3 ∧
     LoggingPkg.LOG_LEVELS .info = 4 ∧ LoggingPkg.LOG_LEVELS .start = 4 ∧
     LoggingPkg.LOG_LEVELS .debug = 5 ∧ LoggingPkg.LOG_LEVELS .trace = 6) ∧
    (∀ (override : Option LoggingPkg.LogLevel) (l : LoggingPkg.Lib.Logger)
       (L : LoggingPkg.LogLevel),
       LoggingPkg.Lib.Logger.logEmits override l L = true ↔
         LoggingPkg.LOG_LEVELS L ≤
           LoggingPkg.LOG_LEVELS (match override with
                                  | some o => o
                                  | none => l.level)) ∧
    (∀ (name : String) (ty : LoggingPkg.LogType) (ev : Bool),
       LoggingPkg.Lib.Logger.logEmits none ⟨name, ty, ev, .warn⟩ .warn = true ∧
       LoggingPkg.Lib.Logger.logEmits none ⟨name, ty, ev, .warn⟩ .error = true ∧
       LoggingPkg.Lib.Logger.logEmits none ⟨name, ty, ev, .warn⟩ .fatal = true ∧
       LoggingPkg.Lib.Logger.logEmits none ⟨name, ty, ev, .warn⟩ .debug = false ∧
       LoggingPkg.Lib.Logger.logEmits none ⟨name, ty, ev, .warn⟩ .info = false ∧
       LoggingPkg.Lib.Logger.logEmits none ⟨name, ty, ev, .warn⟩ .trace = false ∧
       LoggingPkg.Lib.Logger.logEmits none ⟨name, ty, ev, .warn⟩ .success = false ∧
       LoggingPkg.Lib.Logger.logEmits none ⟨name, ty, ev, .warn⟩ .start = false) ∧
    (∀ (name : String) (ty : LoggingPkg.LogType) (ev : Bool),
       LoggingPkg.Lib.Logger.logEmits (some .error) ⟨name, ty, ev, .debug⟩ .warn = false ∧
       LoggingPkg.Lib.Logger.logEmits (some .error) ⟨name, ty, ev, .debug⟩ .debug = false ∧
       LoggingPkg.Lib.Logger.logEmits (some .error) ⟨name, ty, ev, .debug⟩ .error = true) := by
  refine ⟨⟨rfl, rfl, rfl, rfl, rfl, rfl, rfl, rfl⟩, fun override l L => ?_,
          fun name ty ev => ⟨rfl, rfl, rfl, rfl, rfl, rfl, rfl, rfl⟩,
          fun name ty ev => ⟨rfl, rfl, rfl⟩⟩
  cases override <;>
    simp [LoggingPkg.Lib.Logger.logEmits, LoggingPkg.Lib.Logger.shouldLog, Option.getD]

/-! ### C4 — `set` read-your-writes and persistence failure -/

/-- C4: after `set(p)` the live object is the prior settings
shallow-merged with `p` (so `get()` shows the write with no refresh, and
any key of `p` reads back its value from `p`), the full merged object is
what was handed to `storage.save`, the call's outcome is exactly the
save's outcome (a rejection propagates), and on a save failure the
in-memory update is not rolled back. -/
theorem C4_set_semantics :
    ∀ (m : SettingsPkg.SettingsManager) (storage : SettingsPkg.ISettingsStorage) (p : JSObject),
      (m.set storage p).fst.get = mapMerge m.settings p ∧
      (m.set storage p).fst.saveCalls = m.saveCalls ++ [mapMerge m.settings p] ∧
      (m.set storage p).snd = storage.saveResult (mapMerge m.settings p) ∧
      (∀ k, (mapKeys p).Nodup → mapHas p k = true →
        (m.set storage p).fst.getValue k = mapGet p k) ∧
      (∀ e, storage.saveResult (mapMerge m.settings p) = Except.error e →
        (m.set storage p).fst.get = mapMerge m.settings p) := by
  intro m storage p
  refine ⟨rfl, rfl, rfl, fun k hnd hk => ?_, fun e _ => rfl⟩
  simpa [SettingsPkg.SettingsManager.set, SettingsPkg.SettingsManager.getValue] using
    mapGet_mapMerge_of_has m.settings p k hnd hk

/-- C4, witness: a manager with default `\x7bk: 1\x7d` over a storage
whose save always rejects; `set \x7bk: 2\x7d` returns the rejection and
the live object still reads back `2`. -/
theorem C4_set_semantics_witness :
    ((SettingsPkg.SettingsManager.make "app" [("k", JSValue.num 1)] "" false).set
        ⟨some [], fun _ => Except.error "save failed"⟩ [("k", JSValue.num 2)]).snd =
      Except.error "save failed" ∧
    ((SettingsPkg.SettingsManager.make "app" [("k", JSValue.num 1)] "" false).set
        ⟨some [], fun _ => Except.error "save failed"⟩ [("k", JSValue.num 2)]).fst.getValue "k" =
      some (JSValue.num 2) := by
  constructor
  · exact (C4_set_semantics (SettingsPkg.SettingsManager.make "app" [("k", JSValue.num 1)] "" false)
      ⟨some [], fun _ => Except.error "save failed"⟩ [("k", JSValue.num 2)]).2.2.1.trans rfl
  · exact ((C4_set_semantics (SettingsPkg.SettingsManager.make "app" [("k", JSValue.num 1)] "" false)
      ⟨some [], fun _ => Except.error "save failed"⟩ [("k", JSValue.num 2)]).2.2.2.1 "k"
        (by decide) (by rfl)).trans rfl

/-! ### C10 — `setValue` fire-and-forget persistence -/

/-- C10: `setValue(key, v)` assigns the key so `getValue(key)` reads it
back, and triggers a whole-object save (the full updated object is what
reaches the storage); but the save is not awaited: the caller-visible
result carries no error channel and is identical whatever the storage's
save would answer — unlike `set`, whose outcome is the save's outcome
and therefore surfaces a rejection. -/
theorem C10_setValue_fire_and_forget :
    ∀ (m : SettingsPkg.SettingsManager) (s1 s2 : SettingsPkg.ISettingsStorage)
      (k : String) (v : JSValue),
      (m.setValue s1 k v).getValue k = some v ∧
      (m.setValue s1 k v).settings = mapSet m.settings k v ∧
      (m.setValue s1 k v).saveCalls = m.saveCalls ++ [mapSet m.settings k v] ∧
      m.setValue s1 k v = m.setValue s2 k v ∧
      (∀ p e, s1.saveResult (mapMerge m.settings p) = Except.error e →
        (m.set s1 p).snd = Except.error e) := by
  intro m s1 s2 k v
  refine ⟨?_, rfl, rfl, rfl, fun p e he => he⟩
  simp [SettingsPkg.SettingsManager.setValue, SettingsPkg.SettingsManager.getValue]

/-- C10, witness: against a storage whose save always rejects,
`setValue` still returns the updated state — identical to the state it
returns over a storage whose save succeeds — while `set` surfaces the
rejection. -/
theorem C10_setValue_fire_and_forget_witness :
    ((SettingsPkg.SettingsManager.make "app" [("k", JSValue.num 1)] "" false).setValue
        ⟨some [], fun _ => Except.error "boom"⟩ "k" (JSValue.num 2)).getValue "k" =
      some (JSValue.num 2) ∧
    (SettingsPkg.SettingsManager.make "app" [("k", JSValue.num 1)] "" false).setValue
        ⟨some [], fun _ => Except.error "boom"⟩ "k" (JSValue.num 2) =
      (SettingsPkg.SettingsManager.make "app" [("k", JSValue.num 1)] "" false).setValue
        ⟨some [], fun _ => Except.ok ()⟩ "k" (JSValue.num 2) ∧
    ((SettingsPkg.SettingsManager.make "app" [("k", JSValue.num 1)] "" false).set
        ⟨some [], fun _ => Except.error "boom"⟩ [("k", JSValue.num 2)]).snd =
      Except.error "boom" := by
  refine ⟨?_, ?_, ?_⟩
  · exact (C10_setValue_fire_and_forget
      (SettingsPkg.SettingsManager.make "app" [("k", JSValue.num 1)] "" false)
      ⟨some [], fun _ => Except.error "boom"⟩
      ⟨some [], fun _ => Except.ok ()⟩ "k" (JSValue.num 2)).1
  · exact (C10_setValue_fire_and_forget
      (SettingsPkg.SettingsManager.make "app" [("k", JSValue.num 1)] "" false)
      ⟨some [], fun _ => Except.error "boom"⟩
      ⟨some [], fun _ => Except.ok ()⟩ "k" (JSValue.num 2)).2.2.2.1
  · exact (C10_setValue_fire_and_forget
      (SettingsPkg.SettingsManager.make "app" [("k", JSValue.num 1)] "" false)
      ⟨some [], fun _ => Except.error "boom"⟩
      ⟨some [], fun _ => Except.ok ()⟩ "k" (JSValue.num 2)).2.2.2.2
        [("k", JSValue.num 2)] "boom" rfl

/-! ### C5 — registry invariants -/

/-- C5: `register` of an already-present name leaves the registry — and
hence the existing entry's fields — unchanged; `update` of an absent
name leaves the registry unchanged; after registering two items with
distinct names into an empty registry, `list()` is exactly the mapping
of those two entries keyed by their names. -/
theorem C5_registry_invariants :
    (∀ (T : Type) [LoggingPkg.Registrable T]
       (r : LoggingPkg.Registry T) (item : T),
       mapHas r.items (LoggingPkg.Registrable.name item) = true → r.register item = r) ∧
    (∀ (T : Type) [LoggingPkg.Registrable T]
       (r : LoggingPkg.Registry T) (item : T),
       mapHas r.items (LoggingPkg.Registrable.name item) = false → r.update item = r) ∧
    (∀ (T : Type) [LoggingPkg.Registrable T] (a b : T),
       LoggingPkg.Registrable.name a ≠ LoggingPkg.Registrable.name b →
       (((LoggingPkg.Registry.mk [] : LoggingPkg.Registry T).register a).register b).list =
         [(LoggingPkg.Registrable.name a, a), (LoggingPkg.Registrable.name b, b)]) := by
  refine ⟨?_, ?_, ?_⟩
  · intro T inst r item h
    simp [LoggingPkg.Registry.register, h]
  · intro T inst r item h
    simp [LoggingPkg.Registry.update, h]
  · intro T inst a b hab
    simp [LoggingPkg.Registry.register, LoggingPkg.Registry.list,
          mapHas, mapGet, mapSet, hab, Ne.symm hab]

/-- C5, witness: two concrete loggers with distinct names, plus a
duplicate `register` and an absent-name `update` that leave a concrete
registry unchanged. -/
theorem C5_registry_invariants_witness :
    (LoggingPkg.Registry.mk [("a", (⟨"a", .service, false, .info, true⟩ : LoggingPkg.Logger))]).register
        (⟨"a", .api, true, .debug, false⟩ : LoggingPkg.Logger) =
      LoggingPkg.Registry.mk [("a", (⟨"a", .service, false, .info, true⟩ : LoggingPkg.Logger))] ∧
    (LoggingPkg.Registry.mk [("a", (⟨"a", .service, false, .info, true⟩ : LoggingPkg.Logger))]).update
        (⟨"b", .api, true, .debug, false⟩ : LoggingPkg.Logger) =
      LoggingPkg.Registry.mk [("a", (⟨"a", .service, false, .info, true⟩ : LoggingPkg.Logger))] ∧
    (((LoggingPkg.Registry.mk [] : LoggingPkg.Registry LoggingPkg.Logger).register
        (⟨"a", .service, false, .info, true⟩ : LoggingPkg.Logger)).register
        (⟨"b", .api, true, .debug, false⟩ : LoggingPkg.Logger)).list =
      [("a", (⟨"a", .service, false, .info, true⟩ : LoggingPkg.Logger)),
       ("b", (⟨"b", .api, true, .debug, false⟩ : LoggingPkg.Logger))] := by
  refine ⟨?_, ?_, ?_⟩
  · exact C5_registry_invariants.1 LoggingPkg.Logger _
      (⟨"a", .api, true, .debug, false⟩ : LoggingPkg.Logger) rfl
  · exact C5_registry_invariants.2.1 LoggingPkg.Logger _
      (⟨"b", .api, true, .debug, false⟩ : LoggingPkg.Logger) rfl
  · exact C5_registry_invariants.2.2 LoggingPkg.Logger
      (⟨"a", .service, false, .info, true⟩ : LoggingPkg.Logger)
      (⟨"b", .api, true, .debug, false⟩ : LoggingPkg.Logger) (by decide)

/-! ### C9 — backend behaviour on malformed / missing data -/

/-- C9, counterexample: on malformed persisted data the file backend
does NOT return an empty result with a warning — `JSON.parse` throws,
the catch clause sees a non-ENOENT error and rethrows it, and no warning
is logged. Concretely, loading the file content `"\x7boops"` yields the
propagated parse error and an empty warning log. -/
theorem C9_counterexample_malformed_file :
    SettingsPkg.FileStorage.load (some "\x7boops") =
      (Except.error "SyntaxError: JSON.parse", []) ∧
    (SettingsPkg.FileStorage.load (some "\x7boops")).fst ≠ Except.ok (JSValue.obj []) := by
  refine ⟨rfl, fun h => ?_⟩
  rw [show (SettingsPkg.FileStorage.load (some "\x7boops")).fst =
        Except.error "SyntaxError: JSON.parse" from rfl] at h
  exact Except.noConfusion h

/-- C9, amended: the file backend's `load()` returns `\x7b\x7d` and logs
a warning only for a missing file (ENOENT); a JSON parse failure
propagates as a thrown error with no warning; a well-formed file returns
the parsed object. The cache backend's `load()` (hash variant) never
throws on malformed field data: a field failing `JSON.parse` is kept as
its raw string. -/
theorem C9_storage_load_amended :
    SettingsPkg.FileStorage.load none =
      (Except.ok (JSValue.obj []), ["settings file missing during load, returning empty object"]) ∧
    (∀ s : String, jsonParse s = none →
      SettingsPkg.FileStorage.load (some s) = (Except.error "SyntaxError: JSON.parse", [])) ∧
    (∀ (s : String) (v : JSValue), jsonParse s = some v →
      SettingsPkg.FileStorage.load (some s) = (Except.ok v, [])) ∧
    (∀ k v : String, SettingsPkg.RedisStorage.load [(k, v)] =
      [(k, (jsonParse v).getD (JSValue.str v))]) := by
  refine ⟨rfl, fun s hs => ?_, fun s v hv => ?_, fun k v => ?_⟩
  · simp [SettingsPkg.FileStorage.load, hs]
  · simp [SettingsPkg.FileStorage.load, hv]
  · simp [SettingsPkg.RedisStorage.load, mapSet]

/-- C9, witness: a missing file loads as the empty object with the
warning; the malformed content `"not-json"` makes the file backend
throw; the cache backend keeps the unparseable field value `"not-json"`
as a raw string. -/
theorem C9_storage_load_amended_witness :
    SettingsPkg.FileStorage.load none =
      (Except.ok (JSValue.obj []), ["settings file missing during load, returning empty object"]) ∧
    SettingsPkg.FileStorage.load (some "not-json") =
      (Except.error "SyntaxError: JSON.parse", []) ∧
    SettingsPkg.RedisStorage.load [("k", "not-json")] = [("k", JSValue.str "not-json")] := by
  refine ⟨C9_storage_load_amended.1, ?_, ?_⟩
  · exact C9_storage_load_amended.2.1 "not-json" rfl
  · exact (C9_storage_load_amended.2.2.2 "k" "not-json").trans rfl

/-! ### C7 — `toJSON`/`fromJSON` round trip -/

/-- C7, counterexample: on the client, `fromJSON(toJSON(l))` routes
through the constructor, whose `init` adopts an existing store entry
under the same name; with a store entry at level `info` differing from
the logger's current level `debug`, the round-tripped instance comes
back at `info`, not `debug`. -/
theorem C7_counterexample_client_store_override :
    (LoggingPkg.Logger.fromJSON
        (LoggingPkg.Logger.toJSON ⟨"svc", .service, false, .debug, true⟩) true
        ⟨⟨[]⟩, ⟨[("svc", ⟨"svc", .info, .service, false, true⟩)]⟩⟩).fst.level =
      LoggingPkg.LogLevel.info ∧
    (⟨"svc", .service, false, .debug, true⟩ : LoggingPkg.Logger).level =
      LoggingPkg.LogLevel.debug ∧
    LoggingPkg.LogLevel.info ≠ LoggingPkg.LogLevel.debug := by
  exact ⟨rfl, rfl, by decide⟩

/-- C7, amended: `fromJSON(toJSON(l))` yields identical
name/level/type/errorVerbose/enabled on the server unconditionally; on
the client it yields the identical instance provided the persisted store
holds no entry under the logger's name, or holds exactly the logger's
own serialization; and `fromJSON` goes through the normal constructor,
so on the server it triggers the same `registry.register` side effect as
direct construction (and leaves the client store alone). -/
theorem C7_roundtrip_amended :
    (∀ (l : LoggingPkg.Logger) (w : LoggingPkg.World),
      (LoggingPkg.Logger.fromJSON l.toJSON false w).fst.name = l.name ∧
      (LoggingPkg.Logger.fromJSON l.toJSON false w).fst.level = l.level ∧
      (LoggingPkg.Logger.fromJSON l.toJSON false w).fst.type = l.type ∧
      (LoggingPkg.Logger.fromJSON l.toJSON false w).fst.errorVerbose = l.errorVerbose ∧
      (LoggingPkg.Logger.fromJSON l.toJSON false w).fst.enabled = l.enabled) ∧
    (∀ (l : LoggingPkg.Logger) (w : LoggingPkg.World),
      mapGet w.clientStore.loggers l.name = none ∨
        mapGet w.clientStore.loggers l.name = some l.toJSON →
      (LoggingPkg.Logger.fromJSON l.toJSON true w).fst = l) ∧
    (∀ (data : LoggingPkg.LogConfigEntry) (w : LoggingPkg.World),
      (LoggingPkg.Logger.fromJSON data false w).snd.serverRegistry =
        w.serverRegistry.register
          ⟨data.name, data.type, data.errorVerbose, data.level, data.enabled⟩ ∧
      (LoggingPkg.Logger.fromJSON data false w).snd.clientStore = w.clientStore) := by
  refine ⟨fun l w => ⟨rfl, rfl, rfl, rfl, rfl⟩, fun l w h => ?_, fun data w => ⟨rfl, rfl⟩⟩
  rcases h with h | h <;>
    simp [LoggingPkg.Logger.fromJSON, LoggingPkg.Logger.construct, LoggingPkg.Logger.init,
          LoggingPkg.Logger.toJSON, h]

/-- C7, witness: round-tripping a concrete logger through an empty
client store reproduces the instance. -/
theorem C7_roundtrip_amended_witness :
    (LoggingPkg.Logger.fromJSON
        (LoggingPkg.Logger.toJSON ⟨"a", .api, true, .warn, true⟩) true
        ⟨⟨[]⟩, ⟨[]⟩⟩).fst = (⟨"a", .api, true, .warn, true⟩ : LoggingPkg.Logger) :=
  C7_roundtrip_amended.2.1 ⟨"a", .api, true, .warn, true⟩ ⟨⟨[]⟩, ⟨[]⟩⟩ (Or.inl rfl)

/-! ### C8 — existing-entry behaviour at construction -/

/-- C8, counterexample: on the server, constructing a logger whose name
is already registered does NOT adopt the existing configuration —
`registry.register` is insert-if-absent, so the registry keeps the first
entry and the new instance keeps its requested level (`debug`, not the
registered `error`). -/
theorem C8_counterexample_server_no_adoption :
    (LoggingPkg.Logger.construct "a" .service .debug false true true false
        ⟨⟨[("a", ⟨"a", .service, false, .error, true⟩)]⟩, ⟨[]⟩⟩).fst.level =
      LoggingPkg.LogLevel.debug ∧
    LoggingPkg.LogLevel.debug ≠ LoggingPkg.LogLevel.error ∧
    (LoggingPkg.Logger.construct "a" .service .debug false true true false
        ⟨⟨[("a", ⟨"a", .service, false, .error, true⟩)]⟩, ⟨[]⟩⟩).snd.serverRegistry.items =
      [("a", ⟨"a", .service, false, .error, true⟩)] := by
  exact ⟨rfl, by decide, rfl⟩

/-- C8, amended: only on the client does an existing entry override the
new instance's requested values — a logger constructed while the
persisted store holds an entry under its name adopts that entry's
level/type/errorVerbose/enabled, the store staying unchanged. On the
server, registration with a taken name leaves the registry — and the
first-registered entry — unchanged, and the new instance keeps its own
requested configuration. -/
theorem C8_registration_amended :
    (∀ (name : String) (ty : LoggingPkg.LogType) (lvl : LoggingPkg.LogLevel)
       (ev en reg : Bool) (w : LoggingPkg.World) (e : LoggingPkg.LogConfigEntry),
      mapGet w.clientStore.loggers name = some e →
      (LoggingPkg.Logger.construct name ty lvl ev en reg true w).fst =
        ⟨name, e.type, e.errorVerbose, e.level, e.enabled⟩ ∧
      (LoggingPkg.Logger.construct name ty lvl ev en reg true w).snd = w) ∧
    (∀ (name : String) (ty : LoggingPkg.LogType) (lvl : LoggingPkg.LogLevel)
       (ev en : Bool) (w : LoggingPkg.World),
      mapHas w.serverRegistry.items name = true →
      (LoggingPkg.Logger.construct name ty lvl ev en true false w).fst =
        ⟨name, ty, ev, lvl, en⟩ ∧
      (LoggingPkg.Logger.construct name ty lvl ev en true false w).snd = w) := by
  constructor
  · intro name ty lvl ev en reg w e h
    constructor <;>
      simp [LoggingPkg.Logger.construct, LoggingPkg.Logger.init, h]
  · intro name ty lvl ev en w h
    constructor <;>
      simp [LoggingPkg.Logger.construct, LoggingPkg.Logger.init,
            LoggingPkg.Registry.register, LoggingPkg.Registrable.name, h]

/-- C8, witness: a concrete client adoption (store entry at level
`error` overrides a requested `debug`) and a concrete server no-op
registration under a taken name. -/
theorem C8_registration_amended_witness :
    (LoggingPkg.Logger.construct "a" .service .debug false true true true
        ⟨⟨[]⟩, ⟨[("a", ⟨"a", .error, .api, true, false⟩)]⟩⟩).fst =
      (⟨"a", .api, true, .error, false⟩ : LoggingPkg.Logger) ∧
    (LoggingPkg.Logger.construct "a" .service .debug false true true false
        ⟨⟨[("a", ⟨"a", .service, false, .error, true⟩)]⟩, ⟨[]⟩⟩).snd =
      ⟨⟨[("a", ⟨"a", .service, false, .error, true⟩)]⟩, ⟨[]⟩⟩ := by
  constructor
  · exact (C8_registration_amended.1 "a" .service .debug false true true
      ⟨⟨[]⟩, ⟨[("a", ⟨"a", .error, .api, true, false⟩)]⟩⟩
      ⟨"a", .error, .api, true, false⟩ rfl).1
  · exact (C8_registration_amended.2 "a" .service .debug false true
      ⟨⟨[("a", ⟨"a", .service, false, .error, true⟩)]⟩, ⟨[]⟩⟩ rfl).2

/-! ### C1 — `initialize()` order and default preservation -/

/-- A left fold by a function that fixes `b` on every list element
returns `b`. -/
theorem foldl_fixed {β γ : Type} (l : List γ) (f : β → γ → β) (b : β)
    (h : ∀ x ∈ l, f b x = b) : l.foldl f b = b := by
  induction l with
  | nil => rfl
  | cons hd tl ih =>
    rw [List.foldl_cons, h hd (by simp)]
    exact ih (fun x hx => h x (by simp [hx]))

/-- When no environment variable matches, `loadFromEnvVars` leaves the
settings object untouched (it only flips `_envVarsLoaded`). -/
theorem loadFromEnvVars_settings_of_noMatch (m : SettingsPkg.SettingsManager)
    (env : SettingsPkg.Env) (h : SettingsPkg.noMatchingEnvB m env = true) :
    (m.loadFromEnvVars env).settings = m.settings := by
  unfold SettingsPkg.SettingsManager.loadFromEnvVars
  unfold SettingsPkg.noMatchingEnvB at h
  dsimp only
  cases hc : (m.allowExtra && (jsToUpper m.prefixStr != "")) with
  | true =>
    rw [hc] at h
    simp only [if_true] at h
    rw [List.all_eq_true] at h
    have hfold : env.foldl (fun acc p =>
        if strStartsWith p.1 (jsToUpper m.prefixStr ++ "_") then
          acc.assignEnvValue (jsToLower (p.1.drop (jsToUpper m.prefixStr ++ "_").length)) p.2
        else acc) m = m := by
      refine foldl_fixed env _ m (fun p hp => ?_)
      have hpn := h p hp
      simp only [Bool.not_eq_true'] at hpn
      simp [hpn]
    rw [if_pos rfl]
    exact congrArg SettingsPkg.SettingsManager.settings hfold
  | false =>
    rw [hc] at h
    simp only [Bool.false_eq_true, if_false] at h
    rw [List.all_eq_true] at h
    have hfold : (mapKeys m.settings).foldl (fun acc key =>
        match mapGet env (acc.getEnvVarName key) with
        | some v => if v ≠ "" then acc.assignEnvValue key v else acc
        | none => acc) m = m := by
      refine foldl_fixed _ _ m (fun key hk => ?_)
      have hkv := h key hk
      cases hg : mapGet env (m.getEnvVarName key) with
      | none => simp [hg]
      | some v =>
        rw [hg] at hkv
        simp only [decide_eq_true_eq] at hkv
        simp [hg, hkv]
    rw [if_neg (by simp)]
    exact congrArg SettingsPkg.SettingsManager.settings hfold

/-- C1: `initialize()` (and `refresh()`, which has the same body)
performs the env overlay first and then shallow-merges the
storage-loaded object on top, so a key present in the loaded object
reads back the storage value; and when no env var matches and the
storage is empty (or `load()` returned `null`), every key of `defaults`
still reads its default after `initialize()`. -/
theorem C1_initialize_env_then_storage :
    (∀ (m : SettingsPkg.SettingsManager) (env : SettingsPkg.Env)
       (st : SettingsPkg.ISettingsStorage),
       (m.initializeSettings env st).get =
         mapMerge ((m.loadFromEnvVars env).settings) (st.loadResult.getD []) ∧
       m.refresh env st = m.initializeSettings env st) ∧
    (∀ (m : SettingsPkg.SettingsManager) (env : SettingsPkg.Env)
       (st : SettingsPkg.ISettingsStorage) (k : String),
       (mapKeys (st.loadResult.getD [])).Nodup →
       mapHas (st.loadResult.getD []) k = true →
       mapGet (m.initializeSettings env st).get k = mapGet (st.loadResult.getD []) k) ∧
    (∀ (name : String) (defaults : JSObject) (prefixStr : String) (allowExtra : Bool)
       (env : SettingsPkg.Env) (st : SettingsPkg.ISettingsStorage) (k : String),
       SettingsPkg.noMatchingEnvB
         (SettingsPkg.SettingsManager.make name defaults prefixStr allowExtra) env = true →
       (st.loadResult = none ∨ st.loadResult = some []) →
       mapGet ((SettingsPkg.SettingsManager.make name defaults prefixStr allowExtra).initializeSettings
           env st).get k = mapGet defaults k) := by
  refine ⟨fun m env st => ⟨rfl, rfl⟩, fun m env st k hnd hk => ?_, ?_⟩
  · simpa [SettingsPkg.SettingsManager.initializeSettings, SettingsPkg.SettingsManager.get] using
      mapGet_mapMerge_of_has ((m.loadFromEnvVars env).settings) (st.loadResult.getD []) k hnd hk
  · intro name defaults prefixStr allowExtra env st k hnm hempty
    have hset := loadFromEnvVars_settings_of_noMatch
      (SettingsPkg.SettingsManager.make name defaults prefixStr allowExtra) env hnm
    have hinit : ((SettingsPkg.SettingsManager.make name defaults prefixStr allowExtra).initializeSettings
        env st).get =
        mapMerge ((SettingsPkg.SettingsManager.make name defaults prefixStr
          allowExtra).loadFromEnvVars env).settings (st.loadResult.getD []) := rfl
    rw [hinit, hset]
    rcases hempty with he | he <;> rw [he] <;> rfl

/-- C1, witness: the spec's own scenario — defaults
`\x7bconnection_count: 0\x7d`, prefix `api`, an environment without
`API_CONNECTION_COUNT`, and an empty storage: `initialize()` keeps the
default, and a storage carrying the key wins over the default. -/
theorem C1_initialize_env_then_storage_witness :
    mapGet ((SettingsPkg.SettingsManager.make "app" [("connection_count", JSValue.num 0)]
        "api" false).initializeSettings [("OTHER_VAR", "x")] ⟨some [], fun _ => Except.ok ()⟩).get
      "connection_count" = some (JSValue.num 0) ∧
    mapGet ((SettingsPkg.SettingsManager.make "app" [("connection_count", JSValue.num 0)]
        "api" false).initializeSettings [("OTHER_VAR", "x")]
        ⟨some [("connection_count", JSValue.num 7)], fun _ => Except.ok ()⟩).get
      "connection_count" = some (JSValue.num 7) := by
  constructor
  · exact (C1_initialize_env_then_storage.2.2 "app" [("connection_count", JSValue.num 0)]
      "api" false [("OTHER_VAR", "x")] ⟨some [], fun _ => Except.ok ()⟩
      "connection_count" (by decide) (Or.inr rfl)).trans rfl
  · exact (C1_initialize_env_then_storage.2.1
      (SettingsPkg.SettingsManager.make "app" [("connection_count", JSValue.num 0)] "api" false)
      [("OTHER_VAR", "x")] ⟨some [("connection_count", JSValue.num 7)], fun _ => Except.ok ()⟩
      "connection_count" (by decide) (by decide)).trans rfl

/-! ### C6 — batch logger update endpoint -/

theorem mapHas_eq_contains {α : Type} (m : List (String × α)) (k : String) :
    mapHas m k = (mapKeys m).contains k := by
  induction m with
  | nil => simp [mapHas, mapGet, mapKeys]
  | cons hd tl ih =>
    obtain ⟨k₀, v₀⟩ := hd
    by_cases h0 : k₀ = k
    · simp [mapHas, mapGet, mapKeys, h0, List.contains_cons]
    · have hne : (k == k₀) = false := beq_eq_false_iff_ne.mpr (fun hh => h0 hh.symm)
      calc mapHas ((k₀, v₀) :: tl) k = mapHas tl k := by simp [mapHas, mapGet, h0]
        _ = (mapKeys tl).contains k := ih
        _ = (mapKeys ((k₀, v₀) :: tl)).contains k := by
            simp only [mapKeys, List.map_cons, List.contains_cons, hne, Bool.false_or]

/-- `Registry.update` never changes the key set: it replaces in place
when the name is present and is a no-op otherwise. -/
theorem mapKeys_Registry_update {T : Type} [LoggingPkg.Registrable T]
    (r : LoggingPkg.Registry T) (item : T) :
    mapKeys (r.update item).items = mapKeys r.items := by
  unfold LoggingPkg.Registry.update
  cases h : mapHas r.items (LoggingPkg.Registrable.name item) with
  | true => simp [h, mapKeys_mapSet_of_has _ _ _ h]
  | false => simp [h]

/-- Every branch of the batch loop body pushes exactly one result. -/
theorem processEntry_results_length (st : LoggingPkg.Handlers.BatchStep) (i : Nat)
    (item : JSValue) :
    (LoggingPkg.Handlers.processEntry st i item).results.length = st.results.length + 1 := by
  unfold LoggingPkg.Handlers.processEntry
  repeat' split
  all_goals dsimp only
  all_goals try split
  all_goals simp

/-- Every branch of the batch loop body either pushes a success result
and no error, or a failure result and one error: the count
`errors + successes` grows by exactly one per item. -/
theorem processEntry_balance (st : LoggingPkg.Handlers.BatchStep) (i : Nat) (item : JSValue) :
    (LoggingPkg.Handlers.processEntry st i item).errors.length +
      (LoggingPkg.Handlers.processEntry st i item).results.countP (fun r => r.success) =
    st.errors.length + st.results.countP (fun r => r.success) + 1 := by
  unfold LoggingPkg.Handlers.processEntry
  repeat' split
  all_goals dsimp only
  all_goals try split
  all_goals simp [List.countP_append, List.countP_cons]
  all_goals omega

/-- The batch loop body never changes the registry's key set. -/
theorem processEntry_keys (st : LoggingPkg.Handlers.BatchStep) (i : Nat) (item : JSValue) :
    mapKeys (LoggingPkg.Handlers.processEntry st i item).reg.items = mapKeys st.reg.items := by
  unfold LoggingPkg.Handlers.processEntry
  repeat' split
  all_goals dsimp only
  all_goals try split
  all_goals simp [mapKeys_Registry_update]

/-- A good item (truthy, valid, name registered) produces a success
result and no error. -/
theorem processEntry_good (st : LoggingPkg.Handlers.BatchStep) (i : Nat) (item : JSValue)
    (h : LoggingPkg.Handlers.goodItemB (mapKeys st.reg.items) item = true) :
    (LoggingPkg.Handlers.processEntry st i item).results.countP (fun r => r.success) =
      st.results.countP (fun r => r.success) + 1 ∧
    (LoggingPkg.Handlers.processEntry st i item).errors = st.errors := by
  unfold LoggingPkg.Handlers.goodItemB at h
  rw [Bool.and_eq_true, Bool.and_eq_true] at h
  obtain ⟨⟨ht, hv⟩, hn⟩ := h
  rw [Option.isNone_iff_eq_none] at hv
  cases hgp : LoggingPkg.Handlers.getProp item "name" with
  | none => rw [hgp] at hn; exact absurd hn (by simp)
  | some nv =>
    cases nv with
    | str s =>
      rw [hgp] at hn
      have hhas : mapHas st.reg.items s = true := by
        rw [mapHas_eq_contains]
        exact hn
      obtain ⟨l, hl⟩ := Option.isSome_iff_exists.mp (by simpa [mapHas] using hhas)
      unfold LoggingPkg.Handlers.processEntry
      rw [ht]
      simp only [Bool.not_true, Bool.false_eq_true, if_false, hv, hgp]
      rw [show LoggingPkg.Registry.get st.reg s = some l from hl]
      simp [List.countP_append, List.countP_cons]
    | null => rw [hgp] at hn; exact absurd hn (by simp)
    | bool b => rw [hgp] at hn; exact absurd hn (by simp)
    | num q => rw [hgp] at hn; exact absurd hn (by simp)
    | inf b => rw [hgp] at hn; exact absurd hn (by simp)
    | arr es => rw [hgp] at hn; exact absurd hn (by simp)
    | obj fs => rw [hgp] at hn; exact absurd hn (by simp)

/-- A ghost item (truthy, valid, name not registered) produces a failure
result, so the success count is unchanged. -/
theorem processEntry_ghost (st : LoggingPkg.Handlers.BatchStep) (i : Nat) (item : JSValue)
    (h : LoggingPkg.Handlers.ghostItemB (mapKeys st.reg.items) item = true) :
    (LoggingPkg.Handlers.processEntry st i item).results.countP (fun r => r.success) =
      st.results.countP (fun r => r.success) := by
  unfold LoggingPkg.Handlers.ghostItemB at h
  rw [Bool.and_eq_true, Bool.and_eq_true] at h
  obtain ⟨⟨ht, hv⟩, hn⟩ := h
  rw [Option.isNone_iff_eq_none] at hv
  cases hgp : LoggingPkg.Handlers.getProp item "name" with
  | none => rw [hgp] at hn; exact absurd hn (by simp)
  | some nv =>
    cases nv with
    | str s =>
      rw [hgp] at hn
      simp only [Bool.not_eq_true'] at hn
      have hhas : mapHas st.reg.items s = false := by rw [mapHas_eq_contains]; exact hn
      have hget : LoggingPkg.Registry.get st.reg s = none := by
        unfold LoggingPkg.Registry.get
        unfold mapHas at hhas
        cases hmg : mapGet st.reg.items s with
        | none => rfl
        | some l => rw [hmg] at hhas; simp at hhas
      unfold LoggingPkg.Handlers.processEntry
      rw [ht]
      simp only [Bool.not_true, Bool.false_eq_true, if_false, hv, hgp]
      rw [hget]
      simp [List.countP_append, List.countP_cons]
    | null => rw [hgp] at hn; exact absurd hn (by simp)
    | bool b => rw [hgp] at hn; exact absurd hn (by simp)
    | num q => rw [hgp] at hn; exact absurd hn (by simp)
    | inf b => rw [hgp] at hn; exact absurd hn (by simp)
    | arr es => rw [hgp] at hn; exact absurd hn (by simp)
    | obj fs => rw [hgp] at hn; exact absurd hn (by simp)

/-- The batch fold: total results and the `errors + successes` balance,
with no hypotheses on the items. -/
theorem batch_foldl_totals (pairs : List (Nat × JSValue)) (st : LoggingPkg.Handlers.BatchStep) :
    (pairs.foldl (fun a p => LoggingPkg.Handlers.processEntry a p.1 p.2) st).results.length =
      st.results.length + pairs.length ∧
    (pairs.foldl (fun a p => LoggingPkg.Handlers.processEntry a p.1 p.2) st).errors.length +
      (pairs.foldl (fun a p => LoggingPkg.Handlers.processEntry a p.1 p.2) st).results.countP
        (fun r => r.success) =
      st.errors.length + st.results.countP (fun r => r.success) + pairs.length := by
  induction pairs generalizing st with
  | nil => simp
  | cons hd tl ih =>
    obtain ⟨len1, bal1⟩ := ih (LoggingPkg.Handlers.processEntry st hd.1 hd.2)
    refine ⟨?_, ?_⟩
    · rw [List.foldl_cons, len1, processEntry_results_length, List.length_cons]
      omega
    · rw [List.foldl_cons, bal1, List.length_cons]
      have := processEntry_balance st hd.1 hd.2
      omega

/-- The batch fold under the good/ghost dichotomy: the registry key set
is preserved and the success count is the number of good items. -/
theorem batch_foldl_good_count (pairs : List (Nat × JSValue)) (st : LoggingPkg.Handlers.BatchStep)
    (h : ∀ p ∈ pairs, LoggingPkg.Handlers.goodItemB (mapKeys st.reg.items) p.2 = true ∨
      LoggingPkg.Handlers.ghostItemB (mapKeys st.reg.items) p.2 = true) :
    mapKeys ((pairs.foldl (fun a p => LoggingPkg.Handlers.processEntry a p.1 p.2) st).reg.items) =
      mapKeys st.reg.items ∧
    (pairs.foldl (fun a p => LoggingPkg.Handlers.processEntry a p.1 p.2) st).results.countP
        (fun r => r.success) =
      st.results.countP (fun r => r.success) +
        pairs.countP (fun p => LoggingPkg.Handlers.goodItemB (mapKeys st.reg.items) p.2) := by
  induction pairs generalizing st with
  | nil => simp
  | cons hd tl ih =>
    have hkeys1 := processEntry_keys st hd.1 hd.2
    have htl : ∀ p ∈ tl, LoggingPkg.Handlers.goodItemB
        (mapKeys (LoggingPkg.Handlers.processEntry st hd.1 hd.2).reg.items) p.2 = true ∨
        LoggingPkg.Handlers.ghostItemB
          (mapKeys (LoggingPkg.Handlers.processEntry st hd.1 hd.2).reg.items) p.2 = true := by
      intro p hp
      rw [hkeys1]
      exact h p (List.mem_cons_of_mem hd hp)
    obtain ⟨ihkeys, ihcount⟩ := ih (LoggingPkg.Handlers.processEntry st hd.1 hd.2) htl
    rw [hkeys1] at ihkeys ihcount
    refine ⟨by rw [List.foldl_cons]; exact ihkeys, ?_⟩
    rw [List.foldl_cons, ihcount, List.countP_cons]
    rcases h hd (List.mem_cons_self hd tl) with hg | hgh
    · rw [(processEntry_good st hd.1 hd.2 hg).1, hg]
      simp
      omega
    · have hnotgood : LoggingPkg.Handlers.goodItemB (mapKeys st.reg.items) hd.2 = false := by
        unfold LoggingPkg.Handlers.goodItemB
        unfold LoggingPkg.Handlers.ghostItemB at hgh
        rw [Bool.and_eq_true, Bool.and_eq_true] at hgh
        obtain ⟨⟨ht, hv⟩, hn⟩ := hgh
        rw [ht, hv]
        cases hgp : LoggingPkg.Handlers.getProp hd.2 "name" with
        | none => simp
        | some nv =>
          rw [hgp] at hn
          cases nv <;> simp_all
      rw [processEntry_ghost st hd.1 hd.2 hgh, hnotgood]
      simp

/-- Successes and failures partition a result list. -/
theorem countP_partition {β : Type} (l : List β) (p : β → Bool) :
    l.countP p + l.countP (fun x => !(p x)) = l.length := by
  induction l with
  | nil => simp
  | cons hd tl ih =>
    cases hp : p hd <;> simp [List.countP_cons, hp] <;> omega

theorem countP_enum_snd {β : Type} (l : List β) (g : β → Bool) :
    l.enum.countP (fun p => g p.2) = l.countP g := by
  conv_rhs => rw [← List.enum_map_snd l]
  rw [List.countP_map]
  rfl

theorem snd_mem_of_mem_enum {β : Type} {l : List β} {p : Nat × β} (h : p ∈ l.enum) :
    p.2 ∈ l := by
  rw [← List.enum_map_snd l]
  exact List.mem_map_of_mem Prod.snd h

/-- Two mutually exclusive predicates that cover a list count up to its
length. -/
theorem countP_or_exclusive {β : Type} (l : List β) (p q : β → Bool)
    (h : ∀ x ∈ l, p x = true ∨ q x = true)
    (hx : ∀ x ∈ l, ¬(p x = true ∧ q x = true)) :
    l.countP p + l.countP q = l.length := by
  induction l with
  | nil => simp
  | cons hd tl ih =>
    have ihtl := ih (fun x hxm => h x (List.mem_cons_of_mem hd hxm))
      (fun x hxm => hx x (List.mem_cons_of_mem hd hxm))
    rcases h hd (List.mem_cons_self hd tl) with hp | hq
    · have hqf : q hd = false := by
        cases hqv : q hd with
        | false => rfl
        | true => exact absurd ⟨hp, hqv⟩ (hx hd (List.mem_cons_self hd tl))
      simp [List.countP_cons, hp, hqf, List.length_cons]
      omega
    · cases hpv : p hd with
      | false =>
        simp [List.countP_cons, hpv, hq, List.length_cons]
        omega
      | true => exact absurd ⟨hpv, hq⟩ (hx hd (List.mem_cons_self hd tl))

/-- A batch item cannot be both good and ghost: the two differ on
whether the name is a registered key. -/
theorem goodItemB_ghostItemB_exclusive (names : List String) (it : JSValue) :
    ¬(LoggingPkg.Handlers.goodItemB names it = true ∧
      LoggingPkg.Handlers.ghostItemB names it = true) := by
  rintro ⟨hg, hh⟩
  unfold LoggingPkg.Handlers.goodItemB at hg
  unfold LoggingPkg.Handlers.ghostItemB at hh
  rw [Bool.and_eq_true, Bool.and_eq_true] at hg hh
  obtain ⟨-, hn⟩ := hg
  obtain ⟨-, hm⟩ := hh
  cases hgp : LoggingPkg.Handlers.getProp it "name" with
  | none => rw [hgp] at hn; simp at hn
  | some nv =>
    rw [hgp] at hn hm
    cases nv <;> simp_all

/-- C6, counterexample: a batch of N = 1 items whose only item
references a nonexistent logger name — "exactly one item references a
nonexistent logger and the other N-1 = 0 are valid updates" — answers
400, not the claimed 207, because no item succeeded. -/
theorem C6_counterexample_single_ghost :
    (LoggingPkg.Handlers.putServerLoggersBatchHandler
        ⟨[("a", ⟨"a", .service, false, .info, true⟩)]⟩
        (.arr [.obj [("name", .str "ghost")]])).fst =
      .batch { success := false
               totalProcessed := 1
               successCount := 0
               failureCount := 1
               results := [{ name := .str "ghost", success := false
                             error := some "Logger \x27ghost\x27 not found in registry"
                             config := none }]
               errors := ["Entry 0: Logger \x27ghost\x27 not found in registry"]
               status := 400 } ∧
    (400 : Nat) ≠ 207 :=
  ⟨rfl, by decide⟩

/-- The batch response's fields in terms of the loop's final state. -/
theorem batchRun_spec (reg : LoggingPkg.Registry LoggingPkg.Logger) (items : List JSValue)
    (st' : LoggingPkg.Handlers.BatchStep)
    (hst : st' = items.enum.foldl (fun a p => LoggingPkg.Handlers.processEntry a p.1 p.2)
      ⟨reg, [], []⟩) :
    (LoggingPkg.Handlers.batchRun reg items).fst.totalProcessed = items.length ∧
    (LoggingPkg.Handlers.batchRun reg items).fst.results = st'.results ∧
    (LoggingPkg.Handlers.batchRun reg items).fst.errors = st'.errors ∧
    (LoggingPkg.Handlers.batchRun reg items).fst.successCount =
      st'.results.countP (fun r => r.success) ∧
    (LoggingPkg.Handlers.batchRun reg items).fst.failureCount =
      st'.results.countP (fun r => !r.success) ∧
    (LoggingPkg.Handlers.batchRun reg items).fst.status =
      (if st'.errors.length = 0 then 200
       else if 0 < st'.results.countP (fun r => r.success) then 207 else 400) ∧
    (LoggingPkg.Handlers.batchRun reg items).snd = st'.reg := by
  subst hst
  refine ⟨rfl, rfl, rfl, ?_, ?_, ?_, rfl⟩
  · exact (List.countP_eq_length_filter _ _).symm
  · exact (List.countP_eq_length_filter _ _).symm
  · rw [List.countP_eq_length_filter]
    rfl

/-- C6, amended: the handler processes every item, continuing past
individual failures; the response's successCount and failureCount sum to
N, the failure count equals the number of recorded errors, and the
status is 200 when nothing failed, 207 when something failed but
something succeeded, and 400 when everything failed; in particular, when
exactly one item references a nonexistent logger name, the other N-1 are
valid updates of existing loggers, and N >= 2, the response reports
successCount = N-1, failureCount = 1 and status 207 (with N = 1 the sole
item's failure makes the status 400, per the counterexample); a
non-array body is rejected with 400. -/
theorem C6_batch_amended :
    (∀ (reg : LoggingPkg.Registry LoggingPkg.Logger) (items : List JSValue),
      (LoggingPkg.Handlers.batchRun reg items).fst.totalProcessed = items.length ∧
      (LoggingPkg.Handlers.batchRun reg items).fst.results.length = items.length ∧
      (LoggingPkg.Handlers.batchRun reg items).fst.successCount +
        (LoggingPkg.Handlers.batchRun reg items).fst.failureCount = items.length ∧
      (LoggingPkg.Handlers.batchRun reg items).fst.failureCount =
        (LoggingPkg.Handlers.batchRun reg items).fst.errors.length ∧
      (LoggingPkg.Handlers.batchRun reg items).fst.status =
        (if (LoggingPkg.Handlers.batchRun reg items).fst.failureCount = 0 then 200
         else if 0 < (LoggingPkg.Handlers.batchRun reg items).fst.successCount then 207
         else 400)) ∧
    (∀ (reg : LoggingPkg.Registry LoggingPkg.Logger) (items : List JSValue),
      (∀ it ∈ items, LoggingPkg.Handlers.goodItemB (mapKeys reg.items) it = true ∨
        LoggingPkg.Handlers.ghostItemB (mapKeys reg.items) it = true) →
      items.countP (LoggingPkg.Handlers.ghostItemB (mapKeys reg.items)) = 1 →
      2 ≤ items.length →
      (LoggingPkg.Handlers.batchRun reg items).fst.successCount = items.length - 1 ∧
      (LoggingPkg.Handlers.batchRun reg items).fst.failureCount = 1 ∧
      (LoggingPkg.Handlers.batchRun reg items).fst.status = 207) ∧
    (∀ (reg : LoggingPkg.Registry LoggingPkg.Logger) (items : List JSValue),
      LoggingPkg.Handlers.putServerLoggersBatchHandler reg (.arr items) =
        (.batch (LoggingPkg.Handlers.batchRun reg items).fst,
         (LoggingPkg.Handlers.batchRun reg items).snd)) ∧
    (∀ (reg : LoggingPkg.Registry LoggingPkg.Logger) (body : JSValue),
      (∀ elems : List JSValue, body ≠ .arr elems) →
      LoggingPkg.Handlers.putServerLoggersBatchHandler reg body =
        (.badRequest "Request body must be an array of logger configurations" 400, reg)) := by
  have key : ∀ (reg : LoggingPkg.Registry LoggingPkg.Logger) (items : List JSValue),
      (LoggingPkg.Handlers.batchRun reg items).fst.results.length = items.length ∧
      (LoggingPkg.Handlers.batchRun reg items).fst.errors.length +
        (LoggingPkg.Handlers.batchRun reg items).fst.successCount = items.length ∧
      (LoggingPkg.Handlers.batchRun reg items).fst.successCount +
        (LoggingPkg.Handlers.batchRun reg items).fst.failureCount =
          (LoggingPkg.Handlers.batchRun reg items).fst.results.length := by
    intro reg items
    obtain ⟨-, hres, herr, hsucc, hfail, -, -⟩ := batchRun_spec reg items _ rfl
    obtain ⟨hlen, hbal⟩ := batch_foldl_totals items.enum ⟨reg, [], []⟩
    rw [List.enum_length] at hlen hbal
    refine ⟨by rw [hres]; simpa using hlen, by rw [herr, hsucc]; simpa using hbal, ?_⟩
    rw [hsucc, hfail, hres]
    exact countP_partition _ _
  refine ⟨fun reg items => ?_, fun reg items hdi hone hN => ?_, fun reg items => rfl,
          fun reg body hne => ?_⟩
  · obtain ⟨hlen, hbal, hpart⟩ := key reg items
    obtain ⟨htot, hres, herr, hsucc, hfail, hstat, -⟩ := batchRun_spec reg items _ rfl
    refine ⟨htot, hlen, by omega, by omega, ?_⟩
    have herrlen2 : (LoggingPkg.Handlers.batchRun reg items).fst.errors.length =
        (items.enum.foldl (fun a p => LoggingPkg.Handlers.processEntry a p.1 p.2)
          ⟨reg, [], []⟩).errors.length := congrArg List.length herr
    have hfc : (LoggingPkg.Handlers.batchRun reg items).fst.failureCount =
        (items.enum.foldl (fun a p => LoggingPkg.Handlers.processEntry a p.1 p.2)
          ⟨reg, [], []⟩).errors.length := by omega
    rw [hstat, ← hfc, ← hsucc]
  · obtain ⟨hlen, hbal, hpart⟩ := key reg items
    obtain ⟨-, hres, herr, hsucc, hfail, hstat, -⟩ := batchRun_spec reg items _ rfl
    have hdi' : ∀ p ∈ items.enum,
        LoggingPkg.Handlers.goodItemB (mapKeys reg.items) p.2 = true ∨
        LoggingPkg.Handlers.ghostItemB (mapKeys reg.items) p.2 = true :=
      fun p hp => hdi p.2 (snd_mem_of_mem_enum hp)
    obtain ⟨-, hcount⟩ := batch_foldl_good_count items.enum ⟨reg, [], []⟩ hdi'
    have hgoods : (items.enum.foldl (fun a p => LoggingPkg.Handlers.processEntry a p.1 p.2)
        ⟨reg, [], []⟩).results.countP (fun r => r.success) =
        items.countP (LoggingPkg.Handlers.goodItemB (mapKeys reg.items)) := by
      rw [hcount]
      simpa using countP_enum_snd items (LoggingPkg.Handlers.goodItemB (mapKeys reg.items))
    have hcover : items.countP (LoggingPkg.Handlers.goodItemB (mapKeys reg.items)) +
        items.countP (LoggingPkg.Handlers.ghostItemB (mapKeys reg.items)) = items.length :=
      countP_or_exclusive items _ _ hdi
        (fun x _ => goodItemB_ghostItemB_exclusive (mapKeys reg.items) x)
    have hsc : (LoggingPkg.Handlers.batchRun reg items).fst.successCount = items.length - 1 := by
      rw [hsucc, hgoods]; omega
    refine ⟨hsc, by omega, ?_⟩
    have herrlen : (items.enum.foldl (fun a p => LoggingPkg.Handlers.processEntry a p.1 p.2)
        ⟨reg, [], []⟩).errors.length =
        (LoggingPkg.Handlers.batchRun reg items).fst.errors.length :=
      (congrArg List.length herr).symm
    rw [hstat, herrlen, hsucc.symm]
    rw [if_neg (by omega), if_pos (by omega)]
  · cases body with
    | arr elems => exact absurd rfl (hne elems)
    | null => rfl
    | bool b => rfl
    | num q => rfl
    | inf b => rfl
    | str s => rfl
    | obj fs => rfl

/-- C6, witness: a concrete batch of two items against a registry
holding logger `a` — one valid update of `a`, one referencing the
unregistered name `ghost` — reports one success, one failure and
status 207; and a concrete non-array body is rejected with 400. -/
theorem C6_batch_amended_witness :
    (LoggingPkg.Handlers.batchRun ⟨[("a", ⟨"a", .service, false, .info, true⟩)]⟩
        [.obj [("name", .str "a"), ("level", .str "debug")],
         .obj [("name", .str "ghost")]]).fst.successCount = 1 ∧
    (LoggingPkg.Handlers.batchRun ⟨[("a", ⟨"a", .service, false, .info, true⟩)]⟩
        [.obj [("name", .str "a"), ("level", .str "debug")],
         .obj [("name", .str "ghost")]]).fst.failureCount = 1 ∧
    (LoggingPkg.Handlers.batchRun ⟨[("a", ⟨"a", .service, false, .info, true⟩)]⟩
        [.obj [("name", .str "a"), ("level", .str "debug")],
         .obj [("name", .str "ghost")]]).fst.status = 207 ∧
    LoggingPkg.Handlers.putServerLoggersBatchHandler
        ⟨[("a", ⟨"a", .service, false, .info, true⟩)]⟩ (.str "nope") =
      (.badRequest "Request body must be an array of logger configurations" 400,
       ⟨[("a", ⟨"a", .service, false, .info, true⟩)]⟩) := by
  have h := C6_batch_amended.2.1 ⟨[("a", ⟨"a", .service, false, .info, true⟩)]⟩
    [.obj [("name", .str "a"), ("level", .str "debug")], .obj [("name", .str "ghost")]]
    (by decide) (by decide) (by decide)
  exact ⟨h.1, h.2.1, h.2.2,
    C6_batch_amended.2.2.2 ⟨[("a", ⟨"a", .service, false, .info, true⟩)]⟩ (.str "nope")
      (fun elems hh => JSValue.noConfusion hh)⟩

end CoreMfg
